import Mathlib

/-!
Verification of the survivorbandana smoothing / overlay-compositing core.

Shallow embedding of the repository's landmark-filtering and compositing code:

* `client/src/utils/filters.ts` — `LowPassFilter`, `OneEuroFilter`
* `client/src/utils/compositor.ts` — `getFaceBoundingBox`,
  `calculateQuadTransform`, `calculateHeadYaw`, `drawWrappedBandana`,
  `compositeImage`

Embedding conventions:

* JavaScript numbers are modelled two ways, per what a claim needs:
  - For claims sensitive to IEEE special values (`NaN`, `±Infinity`) we use
    `JsNum`: the special values plus exact rationals for finite doubles.
    Finite arithmetic is idealized as exact (no rounding, no overflow);
    the special-value propagation rules follow IEEE-754 / JS semantics.
    The distinction between `+0` and `-0` is ignored (both are `fin 0`).
  - For purely geometric claims we work directly in `ℚ` (idealized exact
    arithmetic), again ignoring rounding.
* Source decimal literals denote their exact decimal rationals
  (e.g. `0.016` is `16/1000`).
* `Math.PI` is the IEEE-754 double closest to π, an exact rational (`jsPI`).
* `Math.cos` / `Math.sin` are functions of the JS environment, not of this
  repository; they are passed to the embedded geometry as parameters
  `cosF sinF : ℚ → ℚ`. The facts used about them are facts of the real
  implementations under the exact-value idealization: `cos` is bounded by 1,
  `sin` is 1-Lipschitz, and `cos` is nonincreasing in the absolute value of
  the angle over `[-π, π]` (the only range the code evaluates it on).
* `Array.prototype.sort` with comparator `(a, b) => a.z - b.z` is a stable
  ascending sort (stability is mandated by the ECMAScript spec); it is
  modelled by `List.insertionSort`, which is likewise stable and ascending,
  and therefore computes the same list.
* Stateful classes become explicit state records; a method that mutates
  state returns `result × newState`.
* The DOM canvas context is write-only for the code under study: a sequence
  of `drawImage` calls. We model a render as the record of values fed to
  those calls (geometry, source slices, alpha), not as pixels.
-/

/-- The exact rational value of the IEEE-754 double `Math.PI`. -/
def jsPI : ℚ := 884279719003555 / 281474976710656

/-! ## JsNum: JavaScript number semantics (special values + exact rationals) -/

/-- A JavaScript `number`: `NaN`, `±Infinity`, or a finite value (idealized
as an exact rational). -/
inductive JsNum where
  | nan : JsNum
  | inf : JsNum
  | ninf : JsNum
  | fin (q : ℚ) : JsNum
deriving DecidableEq, Repr

namespace JsNum

/-- IEEE/JS addition. -/
def add : JsNum → JsNum → JsNum
  | nan, _ => nan
  | _, nan => nan
  | inf, ninf => nan
  | ninf, inf => nan
  | inf, _ => inf
  | _, inf => inf
  | ninf, _ => ninf
  | _, ninf => ninf
  | fin a, fin b => fin (a + b)

/-- IEEE/JS negation. -/
def neg : JsNum → JsNum
  | nan => nan
  | inf => ninf
  | ninf => inf
  | fin a => fin (-a)

/-- IEEE/JS subtraction. -/
def sub (a b : JsNum) : JsNum := add a (neg b)

/-- IEEE/JS multiplication (`0 * ±Infinity = NaN`). -/
def mul : JsNum → JsNum → JsNum
  | nan, _ => nan
  | _, nan => nan
  | inf, inf => inf
  | inf, ninf => ninf
  | ninf, inf => ninf
  | ninf, ninf => inf
  | inf, fin b => if b = 0 then nan else if 0 < b then inf else ninf
  | fin a, inf => if a = 0 then nan else if 0 < a then inf else ninf
  | ninf, fin b => if b = 0 then nan else if 0 < b then ninf else inf
  | fin a, ninf => if a = 0 then nan else if 0 < a then ninf else inf
  | fin a, fin b => fin (a * b)

/-- IEEE/JS division (`x/0` for `x ≠ 0` is a signed infinity — the `-0`
distinction being ignored, the divisor `0` counts as `+0`; `0/0 = NaN`;
`∞/∞ = NaN`; `x/±∞ = 0` for finite `x`). -/
def div : JsNum → JsNum → JsNum
  | nan, _ => nan
  | _, nan => nan
  | inf, inf => nan
  | inf, ninf => nan
  | ninf, inf => nan
  | ninf, ninf => nan
  | inf, fin b => if b < 0 then ninf else inf
  | ninf, fin b => if b < 0 then inf else ninf
  | fin _, inf => fin 0
  | fin _, ninf => fin 0
  | fin a, fin b =>
    if b = 0 then (if a = 0 then nan else if 0 < a then inf else ninf)
    else fin (a / b)

/-- JS `Math.abs`. -/
def abs : JsNum → JsNum
  | nan => nan
  | inf => inf
  | ninf => inf
  | fin a => fin |a|

/-- JS `Math.min` (NaN-propagating). -/
def jsMin : JsNum → JsNum → JsNum
  | nan, _ => nan
  | _, nan => nan
  | ninf, _ => ninf
  | _, ninf => ninf
  | inf, b => b
  | a, inf => a
  | fin a, fin b => fin (min a b)

/-- JS `Math.max` (NaN-propagating). -/
def jsMax : JsNum → JsNum → JsNum
  | nan, _ => nan
  | _, nan => nan
  | inf, _ => inf
  | _, inf => inf
  | ninf, b => b
  | a, ninf => a
  | fin a, fin b => fin (max a b)

instance : Add JsNum := ⟨add⟩
instance : Neg JsNum := ⟨neg⟩
instance : Sub JsNum := ⟨sub⟩
instance : Mul JsNum := ⟨mul⟩
instance : Div JsNum := ⟨div⟩

@[simp] theorem fin_add_fin (a b : ℚ) : (fin a) + (fin b) = fin (a + b) := rfl

@[simp] theorem fin_sub_fin (a b : ℚ) : (fin a) - (fin b) = fin (a - b) := by
  show sub (fin a) (fin b) = fin (a - b)
  simp [sub, add, neg, sub_eq_add_neg]

@[simp] theorem fin_mul_fin (a b : ℚ) : (fin a) * (fin b) = fin (a * b) := rfl

theorem fin_div_fin {b : ℚ} (a : ℚ) (hb : b ≠ 0) :
    (fin a) / (fin b) = fin (a / b) := by
  show div (fin a) (fin b) = fin (a / b)
  simp [div, hb]

@[simp] theorem abs_fin (a : ℚ) : (fin a).abs = fin |a| := rfl

@[simp] theorem nan_add (a : JsNum) : nan + a = nan := by
  show add nan a = nan
  cases a <;> rfl

@[simp] theorem add_nan (a : JsNum) : a + nan = nan := by
  show add a nan = nan
  cases a <;> rfl

@[simp] theorem fin_add_nan (a : ℚ) : fin a + nan = nan := rfl

@[simp] theorem nan_mul (a : JsNum) : nan * a = nan := by
  show mul nan a = nan
  cases a <;> rfl

@[simp] theorem mul_nan (a : JsNum) : a * nan = nan := by
  show mul a nan = nan
  cases a <;> rfl

@[simp] theorem nan_div (a : JsNum) : nan / a = nan := by
  show div nan a = nan
  cases a <;> rfl

@[simp] theorem div_nan (a : JsNum) : a / nan = nan := by
  show div a nan = nan
  cases a <;> rfl

@[simp] theorem abs_nan : (nan).abs = nan := rfl

theorem fin_div_zero {a : ℚ} (hpos : 0 < a) : (fin a) / (fin 0) = inf := by
  show div (fin a) (fin 0) = inf
  simp [div, hpos, hpos.ne.symm]

theorem fin_mul_nan (a : ℚ) : fin a * nan = nan := rfl

/-- Multiplying `fin 0` by `+Infinity` yields `NaN` (IEEE rule). -/
theorem zero_mul_inf : (fin 0) * inf = nan := by
  show mul (fin 0) inf = nan
  simp [mul]

theorem zero_mul_ninf : (fin 0) * ninf = nan := by
  show mul (fin 0) ninf = nan
  simp [mul]

theorem fin_div_inf (a : ℚ) : (fin a) / inf = fin 0 := rfl

end JsNum

/-! ## filters.ts — LowPassFilter and OneEuroFilter

State records mirror the TS classes' private fields; methods that mutate
state return `result × newState`. The optional `timestamp` argument of
`OneEuroFilter.filter` defaults to `performance.now()` in the source; the
model takes the timestamp explicitly (the caller supplies the wall clock).
-/

/-- Source `class LowPassFilter`: fields `y`, `s` (both `number | null`, initially
`null`). `s` is written but never read by the source. -/
structure LowPassFilter where
  y : Option JsNum
  s : Option JsNum
deriving DecidableEq, Repr

/-- Source constructor `new LowPassFilter()`. -/
def LowPassFilter.init : LowPassFilter := ⟨none, none⟩

/-- Method `filter(value, alpha)`: on the first call stores and
returns `value` (ignoring `alpha`); afterwards `y := alpha * value +
(1 - alpha) * y`. -/
def LowPassFilter.filter (f : LowPassFilter) (value alpha : JsNum) :
    JsNum × LowPassFilter :=
  match f.y with
  | none => (value, ⟨some value, some value⟩)
  | some y0 =>
    let y1 := alpha * value + (JsNum.fin 1 - alpha) * y0
    (y1, ⟨some y1, f.s⟩)

/-- Config record `OneEuroFilterConfig` with all fields resolved (the constructor's
`?? default` fallbacks already applied). -/
structure OneEuroConfig where
  minCutoff : JsNum
  beta : JsNum
  dcutoff : JsNum
deriving DecidableEq, Repr

/-- The resolved default configuration:
`minCutoff = 1.0`, `beta = 0.007`, `dcutoff = 1.0`. -/
def defaultOneEuroConfig : OneEuroConfig :=
  ⟨JsNum.fin 1, JsNum.fin (7/1000), JsNum.fin 1⟩

/-- Source `class OneEuroFilter`: two low-pass sub-filters, the previous timestamp,
and the configuration. -/
structure OneEuroFilter where
  xFilter : LowPassFilter
  dxFilter : LowPassFilter
  lastTime : Option JsNum
  config : OneEuroConfig
deriving DecidableEq, Repr

/-- Source constructor `new OneEuroFilter(config)` (also the state produced by `reset()`). -/
def OneEuroFilter.init (config : OneEuroConfig) : OneEuroFilter :=
  ⟨LowPassFilter.init, LowPassFilter.init, none, config⟩

/-- Private method `alpha(cutoff, dt)`:
`tau = 1/(2 * Math.PI * cutoff); return 1/(1 + tau/dt)`. -/
def OneEuroFilter.alphaFn (cutoff dt : JsNum) : JsNum :=
  let tau := JsNum.fin 1 / (JsNum.fin 2 * JsNum.fin jsPI * cutoff)
  JsNum.fin 1 / (JsNum.fin 1 + tau / dt)

/-- Method `filter(value, timestamp)` of `OneEuroFilter`.

Source trace: `dt` is `(now - lastTime)/1000` when a previous timestamp
exists, else `0.016`; `lastTime` is then assigned `now`, so the source's
subsequent `this.lastTime !== null ? … : 0` ternary always takes its first
branch — the model computes that branch directly.  `this.xFilter.filter` is
called twice per invocation (once inside the `dx` expression, once for the
return value); the state is threaded accordingly. -/
def OneEuroFilter.filter (f : OneEuroFilter) (value timestamp : JsNum) :
    JsNum × OneEuroFilter :=
  let now := timestamp
  let dt :=
    match f.lastTime with
    | some lt => (now - lt) / JsNum.fin 1000
    | none => JsNum.fin (16/1000)
  let step1 := f.xFilter.filter value (alphaFn f.config.dcutoff dt)
  let dx := (value - step1.fst) / dt
  let step2 := f.dxFilter.filter dx (alphaFn f.config.dcutoff dt)
  let edx := step2.fst
  let cutoff := f.config.minCutoff + f.config.beta * edx.abs
  let step3 := step1.snd.filter value (alphaFn cutoff dt)
  (step3.fst, ⟨step3.snd, step2.snd, some now, f.config⟩)

/-- Feed the same `value` repeatedly, one call per listed timestamp,
collecting the outputs. -/
def OneEuroFilter.runConstant (f : OneEuroFilter) (value : JsNum) :
    List JsNum → List JsNum
  | [] => []
  | t :: ts =>
    let r := f.filter value t
    r.fst :: r.snd.runConstant value ts

/-! ## compositor.ts — geometry over ℚ

Landmarks are modelled as `List (Option Pt)`: `none` is a hole / `undefined`
entry, which the source's truthiness checks (`!leftJaw` etc.) guard against;
`lmGet` models the array access `landmarks[i]` (out of range gives
`undefined`, i.e. `none`).  `Math.cos` / `Math.sin` appear as the function
parameters `cosF` / `sinF` (see the file header). -/

/-- A `LandmarkPoint` `{x, y}` (normalized or pixel space per use site). -/
structure Pt where
  x : ℚ
  y : ℚ
deriving DecidableEq, Repr

/-- Array access `landmarks[i]` on a possibly-holed array. -/
def lmGet (landmarks : List (Option Pt)) (i : ℕ) : Option Pt :=
  landmarks.getD i none

/-- The slots of an `HTMLImageElement` the compositor reads. -/
structure Img where
  complete : Bool
  naturalWidth : ℚ
  width : ℚ
  height : ℚ
deriving DecidableEq, Repr

/-- Source function `calculateHeadYaw(landmarks, isMirrored)`. -/
def calculateHeadYaw (landmarks : List (Option Pt)) (isMirrored : Bool) : ℚ :=
  match lmGet landmarks 0, lmGet landmarks 16,
      lmGet landmarks 30, lmGet landmarks 27 with
  | some leftJaw, some rightJaw, some noseTip, some _noseBridge =>
    let faceCenterX := (leftJaw.x + rightJaw.x) / 2
    let noseOffsetX := noseTip.x - faceCenterX
    let angle := noseOffsetX * 300
    let angle := if isMirrored then -angle else angle
    max (-60) (min 60 angle)
  | _, _, _, _ => 0

/-- A triangle of corner points (the `srcQuad` / `dstQuad` arguments of
`calculateQuadTransform`). -/
structure Tri where
  topLeft : Pt
  topRight : Pt
  bottomLeft : Pt
deriving DecidableEq, Repr

/-- Affine transform coefficients `{a, b, c, d, e, f}` for the matrix
rows `[a c e]` and `[b d f]`. -/
structure AffineCoeffs where
  a : ℚ
  b : ℚ
  c : ℚ
  d : ℚ
  e : ℚ
  f : ℚ
deriving DecidableEq, Repr

/-- Identity coefficients `{a: 1, b: 0, c: 0, d: 1, e: 0, f: 0}`. -/
def idAffine : AffineCoeffs := ⟨1, 0, 0, 1, 0, 0⟩

/-- Apply the affine map to a point: `(a*x + c*y + e, b*x + d*y + f)`. -/
def applyAffine (m : AffineCoeffs) (p : Pt) : Pt :=
  ⟨m.a * p.x + m.c * p.y + m.e, m.b * p.x + m.d * p.y + m.f⟩

/-- The determinant `denom` computed by `calculateQuadTransform` from the
three source points. -/
def quadDenom (src : Tri) : ℚ :=
  let x0 := src.topLeft.x
  let y0 := src.topLeft.y
  let x1 := src.topRight.x
  let y1 := src.topRight.y
  let x2 := src.bottomLeft.x
  let y2 := src.bottomLeft.y
  x0 * (y1 - y2) - x1 * (y0 - y2) + x2 * (y0 - y1)

/-- Source function `calculateQuadTransform(srcQuad, dstQuad)`: solves the
three-point affine system, falling back to the identity when
`|denom| < 1e-10`. -/
def calculateQuadTransform (srcQuad dstQuad : Tri) : AffineCoeffs :=
  let x0 := srcQuad.topLeft.x
  let y0 := srcQuad.topLeft.y
  let x1 := srcQuad.topRight.x
  let y1 := srcQuad.topRight.y
  let x2 := srcQuad.bottomLeft.x
  let y2 := srcQuad.bottomLeft.y
  let u0 := dstQuad.topLeft.x
  let v0 := dstQuad.topLeft.y
  let u1 := dstQuad.topRight.x
  let v1 := dstQuad.topRight.y
  let u2 := dstQuad.bottomLeft.x
  let v2 := dstQuad.bottomLeft.y
  let denom := quadDenom srcQuad
  if |denom| < 1 / 10000000000 then idAffine
  else
    { a := (u0 * (y1 - y2) - u1 * (y0 - y2) + u2 * (y0 - y1)) / denom
      b := (v0 * (y1 - y2) - v1 * (y0 - y2) + v2 * (y0 - y1)) / denom
      c := (x0 * (u1 - u2) - x1 * (u0 - u2) + x2 * (u0 - u1)) / denom
      d := (x0 * (v1 - v2) - x1 * (v0 - v2) + x2 * (v0 - v1)) / denom
      e := (x0 * (y1 * u2 - y2 * u1) - x1 * (y0 * u2 - y2 * u0)
            + x2 * (y0 * u1 - y1 * u0)) / denom
      f := (x0 * (y1 * v2 - y2 * v1) - x1 * (y0 * v2 - y2 * v0)
            + x2 * (y0 * v1 - y1 * v0)) / denom }

/-- One entry of `drawWrappedBandana`'s `sliceData` array. -/
structure Slice where
  x : ℚ
  z : ℚ
  scale : ℚ
  brightness : ℚ
  sourceX : ℚ
  index : ℕ
deriving DecidableEq, Repr

instance : Inhabited Slice := ⟨⟨0, 0, 0, 0, 0, 0⟩⟩

/-- The sort order of `sliceData.sort((a, b) => a.z - b.z)`. -/
def sliceLe (a b : Slice) : Prop := a.z ≤ b.z

instance : DecidableRel sliceLe := fun a b =>
  inferInstanceAs (Decidable (a.z ≤ b.z))

instance : IsTotal Slice sliceLe := ⟨fun a b => le_total a.z b.z⟩

instance : IsTrans Slice sliceLe := ⟨fun _ _ _ h1 h2 => le_trans h1 h2⟩

/-- One `ctx.drawImage` call of the slice loop, in the local (already
translated/rotated) bandana frame: drawn at lateral offset `x`, horizontally
scaled by `scale`, with `globalAlpha = brightness`; source slice
`(sourceX, 0, sourceWidth, image.height)` into destination
`(-sliceWidth/2, -bandanaHeight/2, sliceWidth, bandanaHeight)`.
`z` is carried along for the depth/ordering claims. -/
structure Segment where
  x : ℚ
  z : ℚ
  scale : ℚ
  brightness : ℚ
  sourceX : ℚ
  sourceWidth : ℚ
  sliceWidth : ℚ
deriving DecidableEq, Repr

instance : Inhabited Segment := ⟨⟨0, 0, 0, 0, 0, 0, 0⟩⟩

/-- Everything `drawWrappedBandana` draws: the enclosing
`ctx.translate(foreheadCenterX, centerY + bandanaHeight/2)`, the
`ctx.rotate(eyebrowTilt)` (recorded by the `atan2` arguments
`tiltDY = rightY - leftY`, `tiltDX = rightX - leftX`; the angle itself is
kept symbolic), the computed bandana dimensions, and the ordered list of
slice draw calls. -/
structure BandanaRender where
  originX : ℚ
  originY : ℚ
  tiltDY : ℚ
  tiltDX : ℚ
  bandanaWidth : ℚ
  bandanaHeight : ℚ
  segments : List Segment
deriving DecidableEq, Repr

/-- The slice-generation loop of `drawWrappedBandana` (`for i = 0 .. numSlices-1`
with `numSlices = 80`, `curveAmount = 0.5`, `perspective = 1.5`), including
the back-face discard `z >= -0.3`. -/
def sliceDataOf (cosF sinF : ℚ → ℚ) (imgWidth bandanaWidth headYaw : ℚ) :
    List Slice :=
  (List.range 80).filterMap (fun (i : ℕ) =>
    let numSlices : ℚ := 80
    let curveAmount : ℚ := 1/2
    let normalizedPos := ((i : ℚ) / (numSlices - 1)) * 2 - 1
    let angle := normalizedPos * jsPI * curveAmount
    let effectiveAngle := angle + (headYaw * jsPI / 180) * (3/10)
    let z := cosF effectiveAngle
    let x := sinF effectiveAngle * bandanaWidth / 2
    let perspective : ℚ := 3/2
    let scale := perspective / (perspective + (1 - z) * (1/2))
    let brightness := 7/10 + z * (3/10)
    let sourceX := ((i : ℚ) / numSlices) * imgWidth
    if -(3/10) ≤ z then some ⟨x, z, scale, brightness, sourceX, i⟩
    else none)

/-- The drawing loop of `drawWrappedBandana` over the z-sorted slice list:
per-slice destination width (base width, or for middle slices the max of the
base width and 1.5 times the average spacing to the two list neighbours) and
source width. -/
def segmentsFromSorted (imgWidth bandanaWidth : ℚ) (sorted : List Slice) :
    List Segment :=
  (List.range sorted.length).map (fun (i : ℕ) =>
    let slice := sorted.getD i default
    let numSlices : ℚ := 80
    let base := bandanaWidth / numSlices * 2
    let sliceWidth :=
      if 0 < i ∧ i < sorted.length - 1 then
        let prevX := (sorted.getD (i - 1) default).x
        let nextX := (sorted.getD (i + 1) default).x
        let avgSpacing := |nextX - prevX| / 2
        max base (avgSpacing * (3/2))
      else base
    let baseSourceWidth := imgWidth / numSlices
    let sourceWidth :=
      min (baseSourceWidth * (5/2)) (imgWidth - slice.sourceX)
    { x := slice.x, z := slice.z, scale := slice.scale
      brightness := slice.brightness, sourceX := slice.sourceX
      sourceWidth := sourceWidth, sliceWidth := sliceWidth })

/-- Source function `drawWrappedBandana(ctx, bandanaImage, landmarks,
canvasWidth, canvasHeight, mirroredContext)`.  Returns `none` when one of
the source's early-return guards fires (nothing is drawn).  The slice loop,
back-face discard, z-sort, and per-slice width/source computations follow
the source line by line. -/
def drawWrappedBandana (cosF sinF : ℚ → ℚ) (bandanaImage : Img)
    (landmarks : List (Option Pt)) (canvasWidth canvasHeight : ℚ)
    (mirroredContext : Bool) : Option BandanaRender :=
  if landmarks.length < 68 then none
  else if ¬bandanaImage.complete ∨ bandanaImage.naturalWidth = 0 then none
  else
    match lmGet landmarks 17, lmGet landmarks 26,
        lmGet landmarks 21, lmGet landmarks 22 with
    | some leftEyebrow, some rightEyebrow, some leftInner, some rightInner =>
      let leftX := leftEyebrow.x * canvasWidth
      let rightX := rightEyebrow.x * canvasWidth
      let leftY := leftEyebrow.y * canvasHeight
      let rightY := rightEyebrow.y * canvasHeight
      let eyebrowCenterY :=
        ((leftEyebrow.y + rightEyebrow.y + leftInner.y + rightInner.y) / 4)
          * canvasHeight
      let foreheadCenterX := (leftX + rightX) / 2
      let faceWidth := |rightX - leftX|
      let bandanaWidth := faceWidth * (12/10)
      let bandanaHeight := bandanaWidth * (35/100)
      let headYaw := calculateHeadYaw landmarks mirroredContext
      let centerY := eyebrowCenterY - bandanaHeight * (7/10)
      let sliceData :=
        sliceDataOf cosF sinF bandanaImage.width bandanaWidth headYaw
      let sorted := List.insertionSort sliceLe sliceData
      let segments := segmentsFromSorted bandanaImage.width bandanaWidth sorted
      some
        { originX := foreheadCenterX, originY := centerY + bandanaHeight / 2
          tiltDY := rightY - leftY, tiltDX := rightX - leftX
          bandanaWidth := bandanaWidth, bandanaHeight := bandanaHeight
          segments := segments }
    | _, _, _, _ => none

/-- The slice draw calls a `drawWrappedBandana` invocation performs
(empty when it returned early). -/
def segmentsOf : Option BandanaRender → List Segment
  | none => []
  | some r => r.segments

/-! ## compositor.ts — compositeImage -/

/-- The rectangle `compositeImage` draws the camera frame into:
`ctx.drawImage(videoFrame, offsetX, offsetY, drawWidth, drawHeight)`. -/
structure CoverFit where
  drawWidth : ℚ
  drawHeight : ℚ
  offsetX : ℚ
  offsetY : ℚ
deriving DecidableEq, Repr

/-- Step 2 of `compositeImage`: the cover-fit computation for the video
frame (compare aspect ratios; fill the constraining axis; center-crop the
other). -/
def coverFit (videoWidth videoHeight outputWidth outputHeight : ℚ) :
    CoverFit :=
  let videoAspect := videoWidth / videoHeight
  let outputAspect := outputWidth / outputHeight
  if videoAspect > outputAspect then
    let drawHeight := outputHeight
    let drawWidth := drawHeight * videoAspect
    ⟨drawWidth, drawHeight, -(drawWidth - outputWidth) / 2, 0⟩
  else
    let drawWidth := outputWidth
    let drawHeight := drawWidth / videoAspect
    ⟨drawWidth, drawHeight, 0, -(drawHeight - outputHeight) / 2⟩

/-- The un-mirroring `point => ({x: 1 - point.x, y: point.y})` applied by
`compositeImage` before the capture-time overlay. -/
def unmirrorPoint (p : Pt) : Pt := ⟨1 - p.x, p.y⟩

/-- The capture-time overlay pass of `compositeImage`: the
`ctx.translate(offsetX, offsetY)` applied before `drawWrappedBandana`, and
that call's result. -/
structure OverlayDraw where
  translate : ℚ × ℚ
  render : Option BandanaRender
deriving DecidableEq, Repr

/-- The draw calls of one `compositeImage(options)` invocation (geometry
only; the background fill, watermark, and blob encoding carry no claim
content).  `videoWidth`/`videoHeight` are the camera frame's dimensions;
`overlay = none` when no bandana is selected or no landmarks exist. -/
structure CompositeRender where
  videoFit : CoverFit
  overlay : Option OverlayDraw
deriving DecidableEq, Repr

/-- Steps 2–3 of `compositeImage`: cover-fit the camera frame, then — iff a
bandana image and a nonempty landmark list are present — un-mirror every
landmark (`x → 1 - x`) and draw the bandana with `mirroredContext = false`
on the translated context, with the cover-fit rectangle's dimensions as the
canvas dimensions. -/
def compositeImage (cosF sinF : ℚ → ℚ) (videoWidth videoHeight : ℚ)
    (bandanaImage : Option Img) (landmarks : Option (List (Option Pt)))
    (outputWidth outputHeight : ℚ) : CompositeRender :=
  let fit := coverFit videoWidth videoHeight outputWidth outputHeight
  match bandanaImage, landmarks with
  | some b, some ls =>
    if 0 < ls.length then
      let unmirroredLandmarks := ls.map (Option.map unmirrorPoint)
      { videoFit := fit
        overlay := some
          { translate := (fit.offsetX, fit.offsetY)
            render := drawWrappedBandana cosF sinF b unmirroredLandmarks
              fit.drawWidth fit.drawHeight false } }
    else { videoFit := fit, overlay := none }
  | _, _ => { videoFit := fit, overlay := none }

/-! ## compositor.ts — getFaceBoundingBox (JsNum semantics)

This function's behaviour on the empty list hinges on the IEEE special
values (`Math.min`/`Math.max` folds started at `±Infinity`), so it is
embedded over `JsNum`. -/

/-- A `LandmarkPoint` with JS-number coordinates. -/
structure JsPt where
  x : JsNum
  y : JsNum
deriving DecidableEq, Repr

/-- The bounding-box record returned by `getFaceBoundingBox`. -/
structure BBox where
  minX : JsNum
  maxX : JsNum
  minY : JsNum
  maxY : JsNum
  width : JsNum
  height : JsNum
  centerX : JsNum
  centerY : JsNum
deriving DecidableEq, Repr

/-- The `forEach` accumulator of `getFaceBoundingBox`. -/
structure MinMaxAcc where
  minX : JsNum
  maxX : JsNum
  minY : JsNum
  maxY : JsNum
deriving DecidableEq, Repr

/-- One `forEach` step of `getFaceBoundingBox`. -/
def bboxStep (acc : MinMaxAcc) (p : JsPt) : MinMaxAcc :=
  ⟨JsNum.jsMin acc.minX p.x, JsNum.jsMax acc.maxX p.x,
    JsNum.jsMin acc.minY p.y, JsNum.jsMax acc.maxY p.y⟩

/-- Source function `getFaceBoundingBox(landmarks)`: fold `Math.min` /
`Math.max` from `±Infinity`, then derive width/height/center. -/
def getFaceBoundingBox (landmarks : List JsPt) : BBox :=
  let acc := landmarks.foldl bboxStep
    ⟨JsNum.inf, JsNum.ninf, JsNum.inf, JsNum.ninf⟩
  { minX := acc.minX, maxX := acc.maxX, minY := acc.minY, maxY := acc.maxY
    width := acc.maxX - acc.minX, height := acc.maxY - acc.minY
    centerX := (acc.minX + acc.maxX) / JsNum.fin 2
    centerY := (acc.minY + acc.maxY) / JsNum.fin 2 }

/-- Landmark list used to instantiate hypotheses at a concrete input:
68 points, point `i` at `(i/100, 1/2)`. -/
def wLms : List (Option Pt) :=
  (List.range 68).map (fun i => some ⟨(i : ℚ) / 100, 1/2⟩)

/-- Accessory image used for concrete instantiations: decoded, 800×200. -/
def wImg : Img := ⟨true, 800, 800, 200⟩

/-- The effective cylinder angle of sample `k` in `drawWrappedBandana`'s
slice loop: `normalizedPos * PI * curveAmount + (headYaw * PI/180) * 0.3`
with `normalizedPos = (k/(numSlices - 1)) * 2 - 1`. -/
def effAngleOf (yaw : ℚ) (k : ℕ) : ℚ :=
  (((k : ℚ) / (80 - 1)) * 2 - 1) * jsPI * (1/2) + (yaw * jsPI / 180) * (3/10)

/-- The slice record `drawWrappedBandana`'s loop body builds for sample
`k` (lateral offset, depth, perspective scale, brightness, source slice,
index). -/
def sliceAt (cosF sinF : ℚ → ℚ) (imgWidth bandanaWidth yaw : ℚ) (k : ℕ) :
    Slice :=
  ⟨sinF (effAngleOf yaw k) * bandanaWidth / 2, cosF (effAngleOf yaw k),
   (3/2) / ((3/2) + (1 - cosF (effAngleOf yaw k)) * (1/2)),
   7/10 + cosF (effAngleOf yaw k) * (3/10),
   ((k : ℚ) / 80) * imgWidth, k⟩

/-- The gap from drawn slice `i` to its nearest neighbouring slice: the
minimum distance from slice `i`'s lateral position to that of any *other*
drawn slice, over the whole drawn list (`none` when slice `i` has no
neighbouring slice at all). -/
def nearestSliceGap (segs : List Segment) (i : ℕ) : Option ℚ :=
  (((List.range segs.length).filter (fun j => j != i)).map
    (fun j => |(segs.getD j default).x - (segs.getD i default).x|)).min?

/-! ## Theorems -/

/-- C4: for a landmark set with the jaw and nose indices present, the
head-yaw estimate equals the nose-tip x minus the midpoint of the left/right
jaw x, scaled by the empirical constant 300 to degrees, with the sign
negated exactly when the mirrored flag is true, and the result clamped to
[-60, 60]; if any required index (0, 16, 30, 27) is absent, the estimate
is 0. -/
theorem calculateHeadYaw_spec (landmarks : List (Option Pt))
    (isMirrored : Bool) :
    (∀ lj rj nt nb, lmGet landmarks 0 = some lj →
      lmGet landmarks 16 = some rj → lmGet landmarks 30 = some nt →
      lmGet landmarks 27 = some nb →
      calculateHeadYaw landmarks isMirrored =
        max (-60) (min 60 ((if isMirrored then (-1 : ℚ) else 1)
          * ((nt.x - (lj.x + rj.x) / 2) * 300)))) ∧
    ((lmGet landmarks 0 = none ∨ lmGet landmarks 16 = none ∨
      lmGet landmarks 30 = none ∨ lmGet landmarks 27 = none) →
      calculateHeadYaw landmarks isMirrored = 0) := by
  constructor
  · intro lj rj nt nb h0 h16 h30 h27
    rw [calculateHeadYaw, h0, h16, h30, h27]
    cases isMirrored <;> simp
  · intro h
    rcases hh0 : lmGet landmarks 0 with _ | lj <;>
      rcases hh16 : lmGet landmarks 16 with _ | rj <;>
        rcases hh30 : lmGet landmarks 30 with _ | nt <;>
          rcases hh27 : lmGet landmarks 27 with _ | nb <;>
            simp_all [calculateHeadYaw]

/-- Witness for C4 at a concrete mirrored input: nose tip 30/100, jaw
midpoint 8/100, raw yaw 66 degrees, negated and clamped to -60. -/
theorem calculateHeadYaw_spec_witness :
    calculateHeadYaw wLms true =
      max (-60) (min 60 ((-1 : ℚ)
        * (((30 : ℚ)/100 - ((0 : ℚ)/100 + 16/100) / 2) * 300))) :=
  (calculateHeadYaw_spec wLms true).1 ⟨0/100, 1/2⟩ ⟨16/100, 1/2⟩
    ⟨30/100, 1/2⟩ ⟨27/100, 1/2⟩ (by with_unfolding_all decide)
    (by with_unfolding_all decide) (by with_unfolding_all decide)
    (by with_unfolding_all decide)

/-- C5: when the source triangle's determinant is at least the 1e-10
threshold in absolute value, the affine coefficients returned by
`calculateQuadTransform` map each of the three source points exactly to its
corresponding destination point; when it is below the threshold (in
particular for collinear source points) the identity coefficients are
returned.  (Over the exact-rational embedding the output fields are
rationals, hence never NaN or Infinity; the guarded division is the only
division performed.) -/
theorem calculateQuadTransform_spec (src dst : Tri) :
    (1 / 10000000000 ≤ |quadDenom src| →
      applyAffine (calculateQuadTransform src dst) src.topLeft = dst.topLeft ∧
      applyAffine (calculateQuadTransform src dst) src.topRight = dst.topRight ∧
      applyAffine (calculateQuadTransform src dst) src.bottomLeft
        = dst.bottomLeft) ∧
    (|quadDenom src| < 1 / 10000000000 →
      calculateQuadTransform src dst = idAffine) := by
  obtain ⟨⟨x0, y0⟩, ⟨x1, y1⟩, ⟨x2, y2⟩⟩ := src
  obtain ⟨⟨u0, v0⟩, ⟨u1, v1⟩, ⟨u2, v2⟩⟩ := dst
  constructor
  · intro hden
    have hne : quadDenom ⟨⟨x0, y0⟩, ⟨x1, y1⟩, ⟨x2, y2⟩⟩ ≠ 0 := by
      intro h0
      rw [h0] at hden
      norm_num at hden
    have hD : x0 * (y1 - y2) - x1 * (y0 - y2) + x2 * (y0 - y1) ≠ 0 := hne
    rw [calculateQuadTransform, if_neg (not_lt.mpr hden)]
    refine ⟨?_, ?_, ?_⟩ <;>
      (simp only [applyAffine, quadDenom, Pt.mk.injEq]
       exact ⟨by field_simp; ring, by field_simp; ring⟩)
  · intro hden
    rw [calculateQuadTransform, if_pos hden]

/-- Witness for C5 at a concrete non-degenerate pair: the unit triangle
mapped to a shifted, scaled triangle. -/
theorem calculateQuadTransform_spec_witness :
    applyAffine
      (calculateQuadTransform ⟨⟨0, 0⟩, ⟨1, 0⟩, ⟨0, 1⟩⟩
        ⟨⟨5, 7⟩, ⟨9, 7⟩, ⟨5, 13⟩⟩) (Tri.topLeft ⟨⟨0, 0⟩, ⟨1, 0⟩, ⟨0, 1⟩⟩)
      = Tri.topLeft ⟨⟨5, 7⟩, ⟨9, 7⟩, ⟨5, 13⟩⟩ :=
  ((calculateQuadTransform_spec ⟨⟨0, 0⟩, ⟨1, 0⟩, ⟨0, 1⟩⟩
    ⟨⟨5, 7⟩, ⟨9, 7⟩, ⟨5, 13⟩⟩).1 (by with_unfolding_all decide)).1

/-- Applying the capture-time un-mirroring twice returns the original
optional landmark unchanged. -/
theorem unmirror_involutive (o : Option Pt) :
    Option.map unmirrorPoint (Option.map unmirrorPoint o) = o := by
  cases o with
  | none => rfl
  | some p =>
    cases p with
    | mk px py => simp [unmirrorPoint]

/-- C1: for every captured landmark set (nonempty, with a bandana selected),
the capture-time composite first un-mirrors every landmark (`x → 1 - x`,
`y` unchanged) and then runs `drawWrappedBandana` afresh on the un-mirrored
set with `mirroredContext = false` — the preview-time (mirrored) overlay
computation is not reused.  Moreover the un-mirroring map is an involution:
applied twice it returns the original landmark set exactly. -/
theorem compositeImage_unmirrors (cosF sinF : ℚ → ℚ)
    (videoWidth videoHeight outputWidth outputHeight : ℚ) (b : Img)
    (ls : List (Option Pt)) (h : 0 < ls.length) :
    (compositeImage cosF sinF videoWidth videoHeight (some b) (some ls)
        outputWidth outputHeight).overlay =
      some
        { translate :=
            ((coverFit videoWidth videoHeight outputWidth outputHeight).offsetX,
             (coverFit videoWidth videoHeight outputWidth outputHeight).offsetY)
          render := drawWrappedBandana cosF sinF b
            (ls.map (Option.map unmirrorPoint))
            (coverFit videoWidth videoHeight outputWidth outputHeight).drawWidth
            (coverFit videoWidth videoHeight outputWidth outputHeight).drawHeight
            false } ∧
    (ls.map (Option.map unmirrorPoint)).map (Option.map unmirrorPoint) = ls := by
  constructor
  · simp [compositeImage, h]
  · rw [List.map_map]
    have : (Option.map unmirrorPoint ∘ Option.map unmirrorPoint) =
        fun o : Option Pt => o := by
      funext o
      exact unmirror_involutive o
    rw [this]
    exact List.map_id ls

/-- Witness for C1 at a concrete input: one landmark, unit video and
output dimensions. -/
theorem compositeImage_unmirrors_witness :
    (compositeImage (fun _ => 1) (fun _ => 0) 4 3 (some ⟨true, 800, 800, 200⟩)
        (some [some ⟨1/4, 1/2⟩]) 9 16).overlay =
      some
        { translate := ((coverFit 4 3 9 16).offsetX, (coverFit 4 3 9 16).offsetY)
          render := drawWrappedBandana (fun _ => 1) (fun _ => 0)
            ⟨true, 800, 800, 200⟩
            ([some (⟨1/4, 1/2⟩ : Pt)].map (Option.map unmirrorPoint))
            (coverFit 4 3 9 16).drawWidth (coverFit 4 3 9 16).drawHeight
            false } ∧
    ([some (⟨1/4, 1/2⟩ : Pt)].map (Option.map unmirrorPoint)).map
        (Option.map unmirrorPoint) = [some ⟨1/4, 1/2⟩] :=
  compositeImage_unmirrors (fun _ => 1) (fun _ => 0) 4 3 9 16
    ⟨true, 800, 800, 200⟩ [some ⟨1/4, 1/2⟩] (by decide)

/-- C8: for positive camera-frame and output dimensions, `compositeImage`
draws the camera frame as a cover fit: the drawn rectangle preserves the
frame's aspect ratio, fully covers the output canvas (with equality on the
constraining axis), is centered on the cropped axis
(`offset = -(drawn - output)/2` on both axes), and the capture-time overlay
is translated by that same offset and computed in the drawn rectangle's
dimensions. -/
theorem compositeImage_cover_fit (cosF sinF : ℚ → ℚ) (vw vh ow oh : ℚ)
    (hvw : 0 < vw) (hvh : 0 < vh) (how : 0 < ow) (hoh : 0 < oh) :
    (coverFit vw vh ow oh).drawWidth / (coverFit vw vh ow oh).drawHeight
        = vw / vh ∧
    ow ≤ (coverFit vw vh ow oh).drawWidth ∧
    oh ≤ (coverFit vw vh ow oh).drawHeight ∧
    (ow / oh < vw / vh → (coverFit vw vh ow oh).drawHeight = oh) ∧
    (vw / vh ≤ ow / oh → (coverFit vw vh ow oh).drawWidth = ow) ∧
    (coverFit vw vh ow oh).offsetX
        = -((coverFit vw vh ow oh).drawWidth - ow) / 2 ∧
    (coverFit vw vh ow oh).offsetY
        = -((coverFit vw vh ow oh).drawHeight - oh) / 2 ∧
    (∀ bi lm, (compositeImage cosF sinF vw vh bi lm ow oh).videoFit =
      coverFit vw vh ow oh) ∧
    (∀ b ls, 0 < List.length ls →
      (compositeImage cosF sinF vw vh (some b) (some ls) ow oh).overlay =
        some
          { translate := ((coverFit vw vh ow oh).offsetX,
                          (coverFit vw vh ow oh).offsetY)
            render := drawWrappedBandana cosF sinF b
              (ls.map (Option.map unmirrorPoint))
              (coverFit vw vh ow oh).drawWidth
              (coverFit vw vh ow oh).drawHeight false }) := by
  have hva : 0 < vw / vh := div_pos hvw hvh
  by_cases hc : vw / vh > ow / oh
  · rw [coverFit, if_pos hc]
    dsimp only
    refine ⟨?_, ?_, le_refl oh, fun _ => rfl,
      fun h => absurd hc (not_lt.mpr h), rfl, by simp, ?_, ?_⟩
    · rw [mul_comm, mul_div_assoc, div_self hoh.ne.symm, mul_one]
    · calc ow = ow / oh * oh := (div_mul_cancel₀ _ hoh.ne.symm).symm
        _ ≤ vw / vh * oh := mul_le_mul_of_nonneg_right hc.le hoh.le
        _ = oh * (vw / vh) := mul_comm _ _
    · intro bi lm
      cases bi <;> cases lm <;>
        simp only [compositeImage, coverFit, if_pos hc] <;>
          split_ifs <;> rfl
    · intro b ls h
      simp [compositeImage, coverFit, hc, h]
  · rw [coverFit, if_neg hc]
    push_neg at hc
    dsimp only
    refine ⟨?_, le_refl ow, ?_, fun h => absurd h (not_lt.mpr hc),
      fun _ => rfl, by simp, rfl, ?_, ?_⟩
    · rw [div_div_eq_mul_div, mul_comm, mul_div_assoc, div_self how.ne.symm,
        mul_one]
    · rw [le_div_iff₀ hva]
      calc oh * (vw / vh) ≤ oh * (ow / oh) :=
            mul_le_mul_of_nonneg_left hc hoh.le
        _ = ow := by rw [mul_comm, div_mul_cancel₀ _ hoh.ne.symm]
    · intro bi lm
      cases bi <;> cases lm <;>
        simp only [compositeImage, coverFit, if_neg (not_lt.mpr hc)] <;>
          split_ifs <;> rfl
    · intro b ls h
      simp [compositeImage, coverFit, not_lt.mpr hc, h]

/-- Witness for C8 at a concrete input: a 4:3 frame into a 9:16 output. -/
theorem compositeImage_cover_fit_witness :
    (coverFit 4 3 9 16).drawWidth / (coverFit 4 3 9 16).drawHeight
        = (4 : ℚ) / 3 ∧
    (9 : ℚ) ≤ (coverFit 4 3 9 16).drawWidth ∧
    (16 : ℚ) ≤ (coverFit 4 3 9 16).drawHeight ∧
    ((9 : ℚ) / 16 < 4 / 3 → (coverFit 4 3 9 16).drawHeight = 16) ∧
    ((4 : ℚ) / 3 ≤ 9 / 16 → (coverFit 4 3 9 16).drawWidth = 9) ∧
    (coverFit 4 3 9 16).offsetX = -((coverFit 4 3 9 16).drawWidth - 9) / 2 ∧
    (coverFit 4 3 9 16).offsetY = -((coverFit 4 3 9 16).drawHeight - 16) / 2 ∧
    (∀ bi lm, (compositeImage (fun _ => 1) (fun _ => 0) 4 3 bi lm
      9 16).videoFit = coverFit 4 3 9 16) ∧
    (∀ b ls, 0 < List.length ls →
      (compositeImage (fun _ => 1) (fun _ => 0) 4 3 (some b) (some ls)
          9 16).overlay =
        some
          { translate := ((coverFit 4 3 9 16).offsetX,
                          (coverFit 4 3 9 16).offsetY)
            render := drawWrappedBandana (fun _ => 1) (fun _ => 0) b
              (ls.map (Option.map unmirrorPoint))
              (coverFit 4 3 9 16).drawWidth
              (coverFit 4 3 9 16).drawHeight false }) :=
  compositeImage_cover_fit (fun _ => 1) (fun _ => 0) 4 3 9 16
    (by norm_num) (by norm_num) (by norm_num) (by norm_num)

/-- C6: whenever the landmark list has fewer than 68 points, or any required
eyebrow index (17, 26, 21, 22) is absent, or the accessory image is not
decoded (`complete = false`) or has zero natural width, `drawWrappedBandana`
draws nothing — the emitted segment list is empty.  (In the embedding the
function is total, matching the source's catch-all `try/catch`: no input
throws.) -/
theorem drawWrappedBandana_guards (cosF sinF : ℚ → ℚ) (img : Img)
    (lms : List (Option Pt)) (cw ch : ℚ) (m : Bool)
    (h : lms.length < 68 ∨ lmGet lms 17 = none ∨ lmGet lms 26 = none ∨
      lmGet lms 21 = none ∨ lmGet lms 22 = none ∨
      img.complete = false ∨ img.naturalWidth = 0) :
    segmentsOf (drawWrappedBandana cosF sinF img lms cw ch m) = [] := by
  unfold drawWrappedBandana
  by_cases h68 : lms.length < 68
  · rw [if_pos h68]
    rfl
  · rw [if_neg h68]
    by_cases himg : ¬img.complete ∨ img.naturalWidth = 0
    · rw [if_pos himg]
      rfl
    · rw [if_neg himg]
      rcases hh17 : lmGet lms 17 with _ | p17 <;>
        rcases hh26 : lmGet lms 26 with _ | p26 <;>
          rcases hh21 : lmGet lms 21 with _ | p21 <;>
            rcases hh22 : lmGet lms 22 with _ | p22 <;>
              simp_all [segmentsOf]

/-- Witness for C6: the empty landmark list draws nothing. -/
theorem drawWrappedBandana_guards_witness :
    segmentsOf (drawWrappedBandana (fun _ => 1) (fun _ => 0)
      ⟨true, 800, 800, 200⟩ [] 1080 1920 false) = [] :=
  drawWrappedBandana_guards (fun _ => 1) (fun _ => 0) ⟨true, 800, 800, 200⟩
    [] 1080 1920 false (Or.inl (by decide))

/-- Indexing a mapped range: element `i` of `(List.range n).map f` is `f i`. -/
theorem getD_map_range {α : Type} [Inhabited α] (n : ℕ) (f : ℕ → α) (i : ℕ)
    (h : i < n) : ((List.range n).map f).getD i default = f i := by
  rw [List.getD_eq_getElem?_getD, List.getElem?_map, List.getElem?_range h]
  rfl

/-- The segment loop emits one segment per sorted slice. -/
theorem segmentsFromSorted_length (imgW bw : ℚ) (sorted : List Slice) :
    (segmentsFromSorted imgW bw sorted).length = sorted.length := by
  simp [segmentsFromSorted]

/-- Element `i` of the segment loop's output, in terms of the sorted slice
list. -/
theorem segmentsFromSorted_getD (imgW bw : ℚ) (sorted : List Slice) (i : ℕ)
    (h : i < sorted.length) :
    (segmentsFromSorted imgW bw sorted).getD i default =
      { x := (sorted.getD i default).x, z := (sorted.getD i default).z
        scale := (sorted.getD i default).scale
        brightness := (sorted.getD i default).brightness
        sourceX := (sorted.getD i default).sourceX
        sourceWidth := min (imgW / 80 * (5/2))
          (imgW - (sorted.getD i default).sourceX)
        sliceWidth :=
          if 0 < i ∧ i < sorted.length - 1 then
            max (bw / 80 * 2)
              (|(sorted.getD (i + 1) default).x
                - (sorted.getD (i - 1) default).x| / 2 * (3/2))
          else bw / 80 * 2 } := by
  rw [segmentsFromSorted, getD_map_range _ _ _ h]

/-- The segment list is ordered by nondecreasing depth when the slice list
it is built from is. -/
theorem segmentsFromSorted_pairwise (imgW bw : ℚ) (sorted : List Slice)
    (hs : List.Sorted sliceLe sorted) :
    (segmentsFromSorted imgW bw sorted).Pairwise
      (fun s1 s2 => s1.z ≤ s2.z) := by
  rw [List.pairwise_iff_getElem]
  intro i j hi hj hij
  rw [segmentsFromSorted_length] at hi hj
  have hz := List.pairwise_iff_getElem.mp hs i j hi hj hij
  have hi2 : i < (segmentsFromSorted imgW bw sorted).length := by
    rw [segmentsFromSorted_length]
    exact hi
  have hj2 : j < (segmentsFromSorted imgW bw sorted).length := by
    rw [segmentsFromSorted_length]
    exact hj
  have ei := (List.getD_eq_getElem (segmentsFromSorted imgW bw sorted)
    default hi2).symm
  have ej := (List.getD_eq_getElem (segmentsFromSorted imgW bw sorted)
    default hj2).symm
  rw [ei, ej, segmentsFromSorted_getD _ _ _ _ hi,
    segmentsFromSorted_getD _ _ _ _ hj]
  have gi := List.getD_eq_getElem sorted default hi
  have gj := List.getD_eq_getElem sorted default hj
  rw [gi, gj]
  exact hz

/-- Inversion: a successful `drawWrappedBandana` call's segments are the
segment loop applied to the z-sorted, back-face-culled slice list, with the
bandana width recorded in the result. -/
theorem drawWrappedBandana_some (cosF sinF : ℚ → ℚ) (img : Img)
    (lms : List (Option Pt)) (cw ch : ℚ) (m : Bool) (r : BandanaRender)
    (hr : drawWrappedBandana cosF sinF img lms cw ch m = some r) :
    r.segments = segmentsFromSorted img.width r.bandanaWidth
      (List.insertionSort sliceLe
        (sliceDataOf cosF sinF img.width r.bandanaWidth
          (calculateHeadYaw lms m))) := by
  unfold drawWrappedBandana at hr
  by_cases h68 : lms.length < 68
  · rw [if_pos h68] at hr
    exact absurd hr (by simp)
  · rw [if_neg h68] at hr
    by_cases himg : ¬img.complete ∨ img.naturalWidth = 0
    · rw [if_pos himg] at hr
      exact absurd hr (by simp)
    · rw [if_neg himg] at hr
      rcases hh17 : lmGet lms 17 with _ | p17 <;> rw [hh17] at hr
      · simp at hr
      · rcases hh26 : lmGet lms 26 with _ | p26 <;> rw [hh26] at hr
        · simp at hr
        · rcases hh21 : lmGet lms 21 with _ | p21 <;> rw [hh21] at hr
          · simp at hr
          · rcases hh22 : lmGet lms 22 with _ | p22 <;> rw [hh22] at hr
            · simp at hr
            · obtain rfl : _ = r := Option.some.inj hr
              rfl

/-- Every slice surviving the back-face discard has `z ≥ -0.3`, its `z` is a
value of the cosine parameter, and its brightness is `0.7 + z * 0.3`. -/
theorem sliceDataOf_mem (cosF sinF : ℚ → ℚ) (imgW bw yaw : ℚ) (s : Slice)
    (hs : s ∈ sliceDataOf cosF sinF imgW bw yaw) :
    -(3/10) ≤ s.z ∧ (∃ t, s.z = cosF t) ∧
      s.brightness = 7/10 + s.z * (3/10) := by
  rw [sliceDataOf, List.mem_filterMap] at hs
  obtain ⟨i, _hi, hsome⟩ := hs
  dsimp only at hsome
  by_cases hz : -(3/10) ≤ cosF ((((i : ℚ) / (80 - 1)) * 2 - 1) * jsPI * (1/2)
      + (yaw * jsPI / 180) * (3/10))
  · rw [if_pos hz] at hsome
    obtain rfl : _ = s := Option.some.inj hsome
    exact ⟨hz, ⟨_, rfl⟩, rfl⟩
  · rw [if_neg hz] at hsome
    exact absurd hsome (by simp)

/-- C9: every slice drawn by `drawWrappedBandana` survived the back-face
discard, so its depth satisfies `z ≥ -0.3`; it is drawn with
`globalAlpha = brightness = 0.7 + 0.3 * z`, and since `z` is a cosine value
(`z ≤ 1`), the brightness of every drawn slice lies in `[0.61, 1]`. -/
theorem drawWrappedBandana_brightness (cosF sinF : ℚ → ℚ)
    (hcos : ∀ t, cosF t ≤ 1) (img : Img) (lms : List (Option Pt))
    (cw ch : ℚ) (m : Bool) (seg : Segment)
    (hseg : seg ∈ segmentsOf (drawWrappedBandana cosF sinF img lms cw ch m)) :
    -(3/10) ≤ seg.z ∧ seg.brightness = 7/10 + seg.z * (3/10) ∧
      61/100 ≤ seg.brightness ∧ seg.brightness ≤ 1 := by
  cases hdr : drawWrappedBandana cosF sinF img lms cw ch m with
  | none =>
    rw [hdr] at hseg
    simp [segmentsOf] at hseg
  | some r =>
    rw [hdr] at hseg
    have hsegs := drawWrappedBandana_some cosF sinF img lms cw ch m r hdr
    rw [segmentsOf, hsegs, segmentsFromSorted, List.mem_map] at hseg
    obtain ⟨i, hirange, hfi⟩ := hseg
    rw [List.mem_range] at hirange
    have hmem : (List.insertionSort sliceLe
        (sliceDataOf cosF sinF img.width r.bandanaWidth
          (calculateHeadYaw lms m))).getD i default ∈
        List.insertionSort sliceLe
          (sliceDataOf cosF sinF img.width r.bandanaWidth
            (calculateHeadYaw lms m)) := by
      rw [List.getD_eq_getElem _ _ hirange]
      exact List.getElem_mem _
    have hmem2 := (List.perm_insertionSort sliceLe
      (sliceDataOf cosF sinF img.width r.bandanaWidth
        (calculateHeadYaw lms m))).mem_iff.mp hmem
    obtain ⟨hz1, ⟨t, hzt⟩, hb⟩ :=
      sliceDataOf_mem cosF sinF img.width r.bandanaWidth
        (calculateHeadYaw lms m) _ hmem2
    have hz2 : ((List.insertionSort sliceLe
        (sliceDataOf cosF sinF img.width r.bandanaWidth
          (calculateHeadYaw lms m))).getD i default).z ≤ 1 := by
      rw [hzt]
      exact hcos t
    rw [← hfi]
    dsimp only
    refine ⟨hz1, hb, ?_, ?_⟩ <;> rw [hb] <;> linarith

/-- Witness for C9: the first drawn slice of a concrete run (constant
cosine 1) satisfies the depth and brightness bounds. -/
theorem drawWrappedBandana_brightness_witness :
    -(3/10) ≤ ((segmentsOf (drawWrappedBandana (fun _ => 1) (fun _ => 0)
        wImg wLms 1000 1000 false)).getD 0 default).z ∧
    ((segmentsOf (drawWrappedBandana (fun _ => 1) (fun _ => 0)
        wImg wLms 1000 1000 false)).getD 0 default).brightness =
      7/10 + ((segmentsOf (drawWrappedBandana (fun _ => 1) (fun _ => 0)
        wImg wLms 1000 1000 false)).getD 0 default).z * (3/10) ∧
    61/100 ≤ ((segmentsOf (drawWrappedBandana (fun _ => 1) (fun _ => 0)
        wImg wLms 1000 1000 false)).getD 0 default).brightness ∧
    ((segmentsOf (drawWrappedBandana (fun _ => 1) (fun _ => 0)
        wImg wLms 1000 1000 false)).getD 0 default).brightness ≤ 1 :=
  drawWrappedBandana_brightness (fun _ => 1) (fun _ => 0)
    (fun _ => le_refl 1) wImg wLms 1000 1000 false _
    (by with_unfolding_all decide)

namespace JsNum

@[simp] theorem fin_add_inf (a : ℚ) : fin a + inf = inf := rfl

@[simp] theorem fin_sub_nan (a : JsNum) : a - nan = nan := by
  show sub a nan = nan
  cases a <;> rfl

theorem fin_div_ne_zero {b : ℚ} (a : ℚ) (h : b ≠ 0) :
    (fin a) / (fin b) = fin (a / b) := fin_div_fin a h

end JsNum

/-- Filtering against a stored value: the second branch of
`LowPassFilter.filter` spelled out. -/
theorem lowpass_filter_some (y0 : JsNum) (s : Option JsNum)
    (value alpha : JsNum) :
    LowPassFilter.filter ⟨some y0, s⟩ value alpha =
      (alpha * value + (JsNum.fin 1 - alpha) * y0,
       ⟨some (alpha * value + (JsNum.fin 1 - alpha) * y0), s⟩) := rfl

/-- Filtering the first sample: the initialization branch of
`LowPassFilter.filter`. -/
theorem lowpass_filter_none (s : Option JsNum) (value alpha : JsNum) :
    LowPassFilter.filter ⟨none, s⟩ value alpha =
      (value, ⟨some value, some value⟩) := rfl

/-- A finite-coefficient low-pass step leaves a stored value unchanged when
fed that same value: `a*v + (1-a)*v = v`. -/
theorem lowpass_filter_const (v a : ℚ) (s : Option JsNum) :
    LowPassFilter.filter ⟨some (JsNum.fin v), s⟩ (JsNum.fin v)
      (JsNum.fin a) = (JsNum.fin v, ⟨some (JsNum.fin v), s⟩) := by
  rw [lowpass_filter_some]
  have hy : JsNum.fin a * JsNum.fin v
      + (JsNum.fin 1 - JsNum.fin a) * JsNum.fin v = JsNum.fin v := by
    rw [JsNum.fin_mul_fin, JsNum.fin_sub_fin, JsNum.fin_mul_fin,
      JsNum.fin_add_fin]
    congr 1
    ring
  rw [hy]

/-- The rational `Math.PI` is positive. -/
theorem jsPI_pos : 0 < jsPI := by norm_num [jsPI]

/-- For positive cutoff and positive elapsed time the smoothing coefficient
is a finite value. -/
theorem alphaFn_fin (c d : ℚ) (hc : 0 < c) (hd : 0 < d) :
    ∃ a : ℚ, OneEuroFilter.alphaFn (JsNum.fin c) (JsNum.fin d)
      = JsNum.fin a := by
  rw [OneEuroFilter.alphaFn]
  have hp : (0 : ℚ) < 2 * jsPI * c := mul_pos (mul_pos two_pos jsPI_pos) hc
  have h2 : (2 : ℚ) * jsPI * c ≠ 0 := hp.ne.symm
  have htau : 0 < 1 / (2 * jsPI * c) := div_pos one_pos hp
  rw [JsNum.fin_mul_fin, JsNum.fin_mul_fin,
    JsNum.fin_div_fin 1 h2, JsNum.fin_div_fin _ hd.ne.symm,
    JsNum.fin_add_fin, JsNum.fin_div_fin 1 ?hne]
  case hne =>
    have hq : 0 < 1 / (2 * jsPI * c) / d := div_pos htau hd
    have : (0 : ℚ) < 1 + 1 / (2 * jsPI * c) / d := by linarith
    exact this.ne.symm
  exact ⟨_, rfl⟩

/-- For positive cutoff and a zero elapsed time the coefficient collapses to
zero: `tau/0 = Infinity`, `1/(1 + Infinity) = 0`. -/
theorem alphaFn_zero_dt (c : ℚ) (hc : 0 < c) :
    OneEuroFilter.alphaFn (JsNum.fin c) (JsNum.fin 0) = JsNum.fin 0 := by
  rw [OneEuroFilter.alphaFn]
  have hp : (0 : ℚ) < 2 * jsPI * c := mul_pos (mul_pos two_pos jsPI_pos) hc
  have h2 : (2 : ℚ) * jsPI * c ≠ 0 := hp.ne.symm
  have htau : 0 < 1 / (2 * jsPI * c) := div_pos one_pos hp
  rw [JsNum.fin_mul_fin, JsNum.fin_mul_fin, JsNum.fin_div_fin 1 h2,
    JsNum.fin_div_zero htau, JsNum.fin_add_inf, JsNum.fin_div_inf]

/-- A NaN cutoff poisons the coefficient at zero elapsed time. -/
theorem alphaFn_nan_zero :
    OneEuroFilter.alphaFn JsNum.nan (JsNum.fin 0) = JsNum.nan := by
  rw [OneEuroFilter.alphaFn]
  rw [JsNum.mul_nan, JsNum.div_nan, JsNum.nan_div, JsNum.add_nan,
    JsNum.div_nan]

/-- First-ever `filter` call (fresh state): returns the input value
unchanged (for any timestamp; `dt` is the nominal `0.016`), leaving the
value filter primed with `v`, the derivative filter primed with `0`, and
the timestamp stored. -/
theorem oneEuro_first_step (mc b dc v t : ℚ) (hmc : 0 < mc) :
    OneEuroFilter.filter
      (OneEuroFilter.init ⟨JsNum.fin mc, JsNum.fin b, JsNum.fin dc⟩)
      (JsNum.fin v) (JsNum.fin t) =
      (JsNum.fin v,
       ⟨⟨some (JsNum.fin v), some (JsNum.fin v)⟩,
        ⟨some (JsNum.fin 0), some (JsNum.fin 0)⟩,
        some (JsNum.fin t), ⟨JsNum.fin mc, JsNum.fin b, JsNum.fin dc⟩⟩) := by
  obtain ⟨ac, hac⟩ := alphaFn_fin mc (16/1000) hmc (by norm_num)
  rw [OneEuroFilter.filter]
  dsimp only [OneEuroFilter.init, LowPassFilter.init]
  rw [lowpass_filter_none]
  dsimp only
  rw [JsNum.fin_sub_fin, sub_self, JsNum.fin_div_fin 0 (by norm_num),
    zero_div, lowpass_filter_none]
  dsimp only
  rw [JsNum.abs_fin, abs_zero, JsNum.fin_mul_fin, mul_zero,
    JsNum.fin_add_fin, add_zero, hac, lowpass_filter_const]

/-- Steady-state `filter` call: with the value filter at `v`, the
derivative filter at `0`, and a strictly earlier stored timestamp, feeding
`v` again returns exactly `v` and reproduces the steady state at the new
timestamp. -/
theorem oneEuro_steady_step (mc b dc v t t' : ℚ) (s1 s2 : Option JsNum)
    (hmc : 0 < mc) (hdc : 0 < dc) (ht : t < t') :
    OneEuroFilter.filter
      ⟨⟨some (JsNum.fin v), s1⟩, ⟨some (JsNum.fin 0), s2⟩,
        some (JsNum.fin t), ⟨JsNum.fin mc, JsNum.fin b, JsNum.fin dc⟩⟩
      (JsNum.fin v) (JsNum.fin t') =
      (JsNum.fin v,
       ⟨⟨some (JsNum.fin v), s1⟩, ⟨some (JsNum.fin 0), s2⟩,
        some (JsNum.fin t'), ⟨JsNum.fin mc, JsNum.fin b, JsNum.fin dc⟩⟩) := by
  have hdt : 0 < (t' - t) / 1000 := by
    apply div_pos (by linarith) (by norm_num)
  obtain ⟨ad, had⟩ := alphaFn_fin dc ((t' - t) / 1000) hdc hdt
  obtain ⟨ac, hac⟩ := alphaFn_fin mc ((t' - t) / 1000) hmc hdt
  rw [OneEuroFilter.filter]
  dsimp only
  rw [JsNum.fin_sub_fin, JsNum.fin_div_fin _ (by norm_num : (1000:ℚ) ≠ 0),
    had, lowpass_filter_const]
  dsimp only
  rw [JsNum.fin_sub_fin, sub_self, JsNum.fin_div_fin 0 hdt.ne.symm,
    zero_div, lowpass_filter_const]
  dsimp only
  rw [JsNum.abs_fin, abs_zero, JsNum.fin_mul_fin, mul_zero,
    JsNum.fin_add_fin, add_zero, hac, lowpass_filter_const]

/-- From a steady state, a constant input at strictly increasing timestamps
produces exactly the input value on every call. -/
theorem oneEuro_steady_run (mc b dc v : ℚ) (hmc : 0 < mc) (hdc : 0 < dc)
    (qts : List ℚ) :
    ∀ (t : ℚ) (s1 s2 : Option JsNum), List.Chain (· < ·) t qts →
    OneEuroFilter.runConstant
      ⟨⟨some (JsNum.fin v), s1⟩, ⟨some (JsNum.fin 0), s2⟩,
        some (JsNum.fin t), ⟨JsNum.fin mc, JsNum.fin b, JsNum.fin dc⟩⟩
      (JsNum.fin v) (qts.map JsNum.fin) =
      qts.map (fun _ => JsNum.fin v) := by
  induction qts with
  | nil => intro t s1 s2 _; rfl
  | cons t' rest ih =>
    intro t s1 s2 hchain
    rw [List.chain_cons] at hchain
    obtain ⟨htt, hchain2⟩ := hchain
    rw [List.map_cons, OneEuroFilter.runConstant,
      oneEuro_steady_step mc b dc v t t' s1 s2 hmc hdc htt]
    dsimp only
    rw [ih t' s1 s2 hchain2, List.map_cons]

/-- C2 (amended): a fresh `OneEuroFilter` (with positive `minCutoff` and
`dcutoff`) returns the very first value unchanged for any timestamp, and a
constant input sequence at **strictly increasing** timestamps yields
exactly that value on every call.  (At a *repeated* timestamp the claim as
stated fails: the output becomes NaN — see the counterexample.) -/
theorem oneEuroFilter_constant_spec (mc b dc v : ℚ) (hmc : 0 < mc)
    (hdc : 0 < dc) :
    (∀ t : ℚ, (OneEuroFilter.filter
      (OneEuroFilter.init ⟨JsNum.fin mc, JsNum.fin b, JsNum.fin dc⟩)
      (JsNum.fin v) (JsNum.fin t)).fst = JsNum.fin v) ∧
    (∀ qts : List ℚ, qts.Chain' (· < ·) →
      OneEuroFilter.runConstant
        (OneEuroFilter.init ⟨JsNum.fin mc, JsNum.fin b, JsNum.fin dc⟩)
        (JsNum.fin v) (qts.map JsNum.fin) =
        qts.map (fun _ => JsNum.fin v)) := by
  constructor
  · intro t
    rw [oneEuro_first_step mc b dc v t hmc]
  · intro qts hchain
    cases qts with
    | nil => rfl
    | cons t rest =>
      rw [List.map_cons, OneEuroFilter.runConstant,
        oneEuro_first_step mc b dc v t hmc]
      dsimp only
      rw [List.map_cons]
      have hch : List.Chain (· < ·) t rest := hchain
      rw [oneEuro_steady_run mc b dc v hmc hdc rest t _ _ hch]

/-- Witness for C2 (amended) at a concrete input: value 5, timestamps
0, 1/2, 7. -/
theorem oneEuroFilter_constant_spec_witness :
    (OneEuroFilter.filter
      (OneEuroFilter.init ⟨JsNum.fin 1, JsNum.fin (7/1000), JsNum.fin 1⟩)
      (JsNum.fin 5) (JsNum.fin 3)).fst = JsNum.fin 5 ∧
    OneEuroFilter.runConstant
      (OneEuroFilter.init ⟨JsNum.fin 1, JsNum.fin (7/1000), JsNum.fin 1⟩)
      (JsNum.fin 5) (([0, 1/2, 7] : List ℚ).map JsNum.fin) =
      ([0, 1/2, 7] : List ℚ).map (fun _ => JsNum.fin 5) :=
  ⟨(oneEuroFilter_constant_spec 1 (7/1000) 1 5 (by norm_num)
      (by norm_num)).1 3,
   (oneEuroFilter_constant_spec 1 (7/1000) 1 5 (by norm_num)
      (by norm_num)).2 [0, 1/2, 7]
     (List.Chain.cons (by norm_num) (List.Chain.cons (by norm_num)
       List.Chain.nil))⟩

/-- Counterexample for C2 as stated ("at any timestamps"): with the default
configuration and constant input 0, a repeated timestamp makes the second
output NaN, not 0 — once the output equals the input it does *not* stay
there under a repeated timestamp. -/
theorem oneEuro_repeated_timestamp_cex :
    (OneEuroFilter.filter (OneEuroFilter.init defaultOneEuroConfig)
      (JsNum.fin 0) (JsNum.fin 5)).fst = JsNum.fin 0 ∧
    OneEuroFilter.runConstant (OneEuroFilter.init defaultOneEuroConfig)
      (JsNum.fin 0) [JsNum.fin 5, JsNum.fin 5] =
      [JsNum.fin 0, JsNum.nan] ∧ JsNum.nan ≠ JsNum.fin 0 := by
  with_unfolding_all decide

/-- C7 (amended): `OneEuroFilter.filter` is total (never throws), and when
no previous timestamp exists the nominal `dt = 0.016` is used; but a
non-positive timestamp delta is **not** floored to a positive epsilon: a
repeated timestamp makes `dt = 0` a divisor and the output is NaN for every
finite input and primed state (positive `dcutoff`). -/
theorem oneEuro_zero_dt_nan (mc b dc v y0 d0 t : ℚ) (s1 s2 : Option JsNum)
    (hdc : 0 < dc) :
    (OneEuroFilter.filter
      ⟨⟨some (JsNum.fin y0), s1⟩, ⟨some (JsNum.fin d0), s2⟩,
        some (JsNum.fin t), ⟨JsNum.fin mc, JsNum.fin b, JsNum.fin dc⟩⟩
      (JsNum.fin v) (JsNum.fin t)).fst = JsNum.nan := by
  have hy1 : JsNum.fin 0 * JsNum.fin v
      + (JsNum.fin 1 - JsNum.fin 0) * JsNum.fin y0 = JsNum.fin y0 := by
    rw [JsNum.fin_mul_fin, JsNum.fin_sub_fin, JsNum.fin_mul_fin,
      JsNum.fin_add_fin]
    congr 1
    ring
  have hdx : JsNum.fin 0 * (JsNum.fin (v - y0) / JsNum.fin 0) = JsNum.nan := by
    rcases lt_trichotomy (v - y0) 0 with hlt | heq | hgt
    · rw [show JsNum.fin (v - y0) / JsNum.fin 0 = JsNum.ninf by
        show JsNum.div _ _ = _
        simp [JsNum.div, hlt.ne, not_lt.mpr hlt.le]]
      exact JsNum.zero_mul_ninf
    · rw [heq,
        show JsNum.fin 0 / JsNum.fin 0 = JsNum.nan by
          show JsNum.div _ _ = _
          simp [JsNum.div]]
      exact JsNum.fin_mul_nan 0
    · rw [JsNum.fin_div_zero hgt]
      exact JsNum.zero_mul_inf
  rw [OneEuroFilter.filter]
  dsimp only
  rw [JsNum.fin_sub_fin, sub_self,
    JsNum.fin_div_fin 0 (by norm_num : (1000:ℚ) ≠ 0), zero_div,
    alphaFn_zero_dt dc hdc]
  simp only [lowpass_filter_some]
  rw [hy1]
  simp only [JsNum.fin_sub_fin, JsNum.fin_mul_fin, JsNum.fin_add_fin]
  simp only [hdx, JsNum.nan_add, JsNum.abs_nan, JsNum.mul_nan,
    JsNum.add_nan, alphaFn_nan_zero, JsNum.nan_mul, JsNum.fin_sub_nan]

/-- Witness for C7 (amended) at a concrete primed state and repeated
timestamp. -/
theorem oneEuro_zero_dt_nan_witness :
    (OneEuroFilter.filter
      ⟨⟨some (JsNum.fin 0), some (JsNum.fin 0)⟩,
        ⟨some (JsNum.fin 0), some (JsNum.fin 0)⟩,
        some (JsNum.fin 5),
        ⟨JsNum.fin 1, JsNum.fin (7/1000), JsNum.fin 1⟩⟩
      (JsNum.fin 0) (JsNum.fin 5)).fst = JsNum.nan :=
  oneEuro_zero_dt_nan 1 (7/1000) 1 0 0 0 5 (some (JsNum.fin 0))
    (some (JsNum.fin 0)) (by norm_num)

/-- Counterexample for C7 as stated: the source does not floor a
non-positive `dt` to an epsilon — with the default configuration a repeated
timestamp produces NaN (a floored positive `dt` would keep the output
finite; here the second output of a constant-input run is NaN). -/
theorem oneEuro_no_epsilon_floor_cex :
    OneEuroFilter.runConstant (OneEuroFilter.init defaultOneEuroConfig)
      (JsNum.fin 1) [JsNum.fin 2, JsNum.fin 2] = [JsNum.fin 1, JsNum.nan] := by
  with_unfolding_all decide

/-- Folding `bboxStep` over finite-valued points from finite bounds keeps
all four accumulator fields finite with min ≤ max on each axis. -/
theorem bbox_fold_fin (lms : List JsPt)
    (hfin : ∀ p ∈ lms, ∃ qx qy : ℚ,
      p.x = JsNum.fin qx ∧ p.y = JsNum.fin qy) :
    ∀ (mx Mx my My : ℚ), mx ≤ Mx → my ≤ My →
      ∃ mx' Mx' my' My' : ℚ, mx' ≤ Mx' ∧ my' ≤ My' ∧
        lms.foldl bboxStep
            ⟨JsNum.fin mx, JsNum.fin Mx, JsNum.fin my, JsNum.fin My⟩ =
          ⟨JsNum.fin mx', JsNum.fin Mx', JsNum.fin my', JsNum.fin My'⟩ := by
  induction lms with
  | nil =>
    intro mx Mx my My hx hy
    exact ⟨mx, Mx, my, My, hx, hy, rfl⟩
  | cons p rest ih =>
    intro mx Mx my My hx hy
    obtain ⟨qx, qy, hpx, hpy⟩ := hfin p (List.mem_cons_self p rest)
    have hrest : ∀ p ∈ rest, ∃ qx qy : ℚ,
        p.x = JsNum.fin qx ∧ p.y = JsNum.fin qy :=
      fun q hq => hfin q (List.mem_cons_of_mem p hq)
    rw [List.foldl_cons]
    have hstep : bboxStep ⟨JsNum.fin mx, JsNum.fin Mx, JsNum.fin my,
        JsNum.fin My⟩ p =
        ⟨JsNum.fin (min mx qx), JsNum.fin (max Mx qx),
         JsNum.fin (min my qy), JsNum.fin (max My qy)⟩ := by
      rw [bboxStep, hpx, hpy]
      rfl
    rw [hstep]
    exact ih hrest (min mx qx) (max Mx qx) (min my qy) (max My qy)
      (le_trans (min_le_left _ _) (le_trans hx (le_max_left _ _)))
      (le_trans (min_le_left _ _) (le_trans hy (le_max_left _ _)))

/-- C10: on the empty landmark list `getFaceBoundingBox` does not throw but
returns the IEEE fold identities — `minX = +Infinity`, `maxX = -Infinity`,
`width = height = -Infinity`, `centerX = centerY = NaN`; on every nonempty
list of finite points all returned fields are finite, width and height are
nonnegative, and `minX ≤ centerX ≤ maxX`. -/
theorem getFaceBoundingBox_spec :
    (getFaceBoundingBox [] =
      ⟨JsNum.inf, JsNum.ninf, JsNum.inf, JsNum.ninf, JsNum.ninf, JsNum.ninf,
        JsNum.nan, JsNum.nan⟩) ∧
    (∀ lms : List JsPt, lms ≠ [] →
      (∀ p ∈ lms, ∃ qx qy : ℚ, p.x = JsNum.fin qx ∧ p.y = JsNum.fin qy) →
      ∃ ax bx ay cy : ℚ, ax ≤ bx ∧ ay ≤ cy ∧
        getFaceBoundingBox lms =
          ⟨JsNum.fin ax, JsNum.fin bx, JsNum.fin ay, JsNum.fin cy,
            JsNum.fin (bx - ax), JsNum.fin (cy - ay),
            JsNum.fin ((ax + bx) / 2), JsNum.fin ((ay + cy) / 2)⟩ ∧
        0 ≤ bx - ax ∧ 0 ≤ cy - ay ∧
        ax ≤ (ax + bx) / 2 ∧ (ax + bx) / 2 ≤ bx) := by
  constructor
  · rfl
  · intro lms hne hfin
    cases lms with
    | nil => exact absurd rfl hne
    | cons p rest =>
      obtain ⟨qx, qy, hpx, hpy⟩ := hfin p (List.mem_cons_self p rest)
      have hrest : ∀ q ∈ rest, ∃ qx qy : ℚ,
          q.x = JsNum.fin qx ∧ q.y = JsNum.fin qy :=
        fun q hq => hfin q (List.mem_cons_of_mem p hq)
      have hstep : bboxStep
          ⟨JsNum.inf, JsNum.ninf, JsNum.inf, JsNum.ninf⟩ p =
          ⟨JsNum.fin qx, JsNum.fin qx, JsNum.fin qy, JsNum.fin qy⟩ := by
        rw [bboxStep, hpx, hpy]
        rfl
      obtain ⟨ax, bx, ay, cy, hab, hac, hfold⟩ :=
        bbox_fold_fin rest hrest qx qx qy qy (le_refl qx) (le_refl qy)
      refine ⟨ax, bx, ay, cy, hab, hac, ?_, by linarith, by linarith,
        by linarith, by linarith⟩
      rw [getFaceBoundingBox, List.foldl_cons, hstep, hfold]
      dsimp only
      rw [JsNum.fin_sub_fin, JsNum.fin_sub_fin, JsNum.fin_add_fin,
        JsNum.fin_add_fin, JsNum.fin_div_fin _ (by norm_num : (2:ℚ) ≠ 0),
        JsNum.fin_div_fin _ (by norm_num : (2:ℚ) ≠ 0)]

/-- Witness for C10's nonempty case at a concrete two-point list. -/
theorem getFaceBoundingBox_spec_witness :
    ∃ ax bx ay cy : ℚ, ax ≤ bx ∧ ay ≤ cy ∧
      getFaceBoundingBox [⟨JsNum.fin 1, JsNum.fin 5⟩,
          ⟨JsNum.fin 3, JsNum.fin 2⟩] =
        ⟨JsNum.fin ax, JsNum.fin bx, JsNum.fin ay, JsNum.fin cy,
          JsNum.fin (bx - ax), JsNum.fin (cy - ay),
          JsNum.fin ((ax + bx) / 2), JsNum.fin ((ay + cy) / 2)⟩ ∧
      0 ≤ bx - ax ∧ 0 ≤ cy - ay ∧
      ax ≤ (ax + bx) / 2 ∧ (ax + bx) / 2 ≤ bx :=
  getFaceBoundingBox_spec.2 [⟨JsNum.fin 1, JsNum.fin 5⟩,
      ⟨JsNum.fin 3, JsNum.fin 2⟩] (by simp)
    (by
      intro p hp
      rcases List.mem_cons.mp hp with rfl | hp2
      · exact ⟨1, 5, rfl, rfl⟩
      · rcases List.mem_cons.mp hp2 with rfl | hp3
        · exact ⟨3, 2, rfl, rfl⟩
        · exact absurd hp3 (List.not_mem_nil p))

/-- The slice loop, rephrased through `effAngleOf` and `sliceAt`. -/
theorem sliceDataOf_eq (cosF sinF : ℚ → ℚ) (imgW bw yaw : ℚ) :
    sliceDataOf cosF sinF imgW bw yaw =
      (List.range 80).filterMap (fun k =>
        if -(3/10) ≤ cosF (effAngleOf yaw k)
        then some (sliceAt cosF sinF imgW bw yaw k) else none) := rfl

/-- Membership in the culled slice list, elementwise: a slice is sample
`k`'s record for some `k < 80` passing the back-face test. -/
theorem mem_sliceDataOf (cosF sinF : ℚ → ℚ) (imgW bw yaw : ℚ) (s : Slice) :
    s ∈ sliceDataOf cosF sinF imgW bw yaw ↔
      ∃ k, k < 80 ∧ -(3/10) ≤ cosF (effAngleOf yaw k) ∧
        s = sliceAt cosF sinF imgW bw yaw k := by
  rw [sliceDataOf_eq, List.mem_filterMap]
  constructor
  · rintro ⟨k, hk, hsome⟩
    rw [List.mem_range] at hk
    by_cases hz : -(3/10) ≤ cosF (effAngleOf yaw k)
    · rw [if_pos hz] at hsome
      exact ⟨k, hk, hz, (Option.some.inj hsome).symm⟩
    · rw [if_neg hz] at hsome
      exact absurd hsome (by simp)
  · rintro ⟨k, hk, hz, rfl⟩
    exact ⟨k, List.mem_range.mpr hk, by rw [if_pos hz]⟩

/-- Consecutive samples are `jsPI/79` apart in effective angle. -/
theorem effAngleOf_step (yaw : ℚ) (k : ℕ) :
    effAngleOf yaw (k + 1) - effAngleOf yaw k = jsPI / 79 := by
  simp only [effAngleOf]
  push_cast
  ring

/-- The effective angle is monotone in the sample index. -/
theorem effAngleOf_mono (yaw : ℚ) {k m : ℕ} (h : k ≤ m) :
    effAngleOf yaw k ≤ effAngleOf yaw m := by
  have hc : (k : ℚ) ≤ m := Nat.cast_le.mpr h
  simp only [effAngleOf]
  nlinarith [mul_nonneg (sub_nonneg.mpr hc) jsPI_pos.le]

/-- With the yaw clamped to ±60 degrees, every sample's effective angle
stays within `[-jsPI, jsPI]` — the range on which the cosine is
nonincreasing in the angle's absolute value. -/
theorem effAngleOf_abs_le (yaw : ℚ) (k : ℕ) (hk : k < 80)
    (hyaw : |yaw| ≤ 60) : |effAngleOf yaw k| ≤ jsPI := by
  have hk79 : (k : ℚ) ≤ 79 := by exact_mod_cast Nat.le_of_lt_succ hk
  have h0 : (0 : ℚ) ≤ (k : ℚ) := Nat.cast_nonneg k
  obtain ⟨hy1, hy2⟩ := abs_le.mp hyaw
  rw [abs_le]
  simp only [effAngleOf, jsPI]
  constructor <;> [nlinarith; nlinarith]

/-- With a 1-Lipschitz sine, the lateral distance between *consecutive*
samples' slices is below the base slice width `bandanaWidth/80*2` (the
sample spacing is `jsPI/79 < 1/20` of the angle range, so the offsets are
at most `jsPI/158 < 1/40` of `bandanaWidth` apart). -/
theorem sliceAt_x_step (cosF sinF : ℚ → ℚ)
    (hLip : ∀ a b, |sinF a - sinF b| ≤ |a - b|)
    (imgW bw yaw : ℚ) (hbw : 0 ≤ bw) (k : ℕ) :
    |(sliceAt cosF sinF imgW bw yaw (k + 1)).x
      - (sliceAt cosF sinF imgW bw yaw k).x| ≤ bw / 80 * 2 := by
  have h1 : (sliceAt cosF sinF imgW bw yaw (k + 1)).x
      - (sliceAt cosF sinF imgW bw yaw k).x =
      (sinF (effAngleOf yaw (k + 1)) - sinF (effAngleOf yaw k)) * (bw / 2) := by
    simp only [sliceAt]
    ring
  rw [h1, abs_mul, abs_of_nonneg (by linarith : (0:ℚ) ≤ bw / 2)]
  have h2 : |sinF (effAngleOf yaw (k + 1)) - sinF (effAngleOf yaw k)|
      ≤ jsPI / 79 := by
    calc |sinF (effAngleOf yaw (k + 1)) - sinF (effAngleOf yaw k)|
        ≤ |effAngleOf yaw (k + 1) - effAngleOf yaw k| := hLip _ _
      _ = jsPI / 79 := by
          rw [effAngleOf_step,
            abs_of_pos (div_pos jsPI_pos (by norm_num))]
  calc |sinF (effAngleOf yaw (k + 1)) - sinF (effAngleOf yaw k)| * (bw / 2)
      ≤ jsPI / 79 * (bw / 2) :=
        mul_le_mul_of_nonneg_right h2 (by linarith)
    _ ≤ bw / 80 * 2 := by
        have hj : jsPI ≤ 79 / 20 := by norm_num [jsPI]
        nlinarith [mul_nonneg (sub_nonneg.mpr hj) hbw]

/-- The head-yaw estimate is always within ±60 degrees (it is either 0 or
explicitly clamped). -/
theorem calculateHeadYaw_abs_le (lms : List (Option Pt)) (m : Bool) :
    |calculateHeadYaw lms m| ≤ 60 := by
  rw [calculateHeadYaw]
  rcases h0 : lmGet lms 0 with _ | lj
  · simp
  rcases h16 : lmGet lms 16 with _ | rj
  · simp
  rcases h30 : lmGet lms 30 with _ | nt
  · simp
  rcases h27 : lmGet lms 27 with _ | nb
  · simp
  dsimp only
  rw [abs_le]
  exact ⟨le_max_left _ _, max_le (by norm_num) (min_le_left _ _)⟩

/-- Between any two retained samples there is a retained sample *adjacent*
to the first: the effective angle is monotone in the index, the cosine is
nonincreasing in the angle's absolute value on the range used, so the
back-face test holds on every sample between two passing ones. -/
theorem sliceDataOf_adjacent (cosF : ℚ → ℚ)
    (hUni : ∀ a b, |a| ≤ |b| → |b| ≤ jsPI → cosF b ≤ cosF a)
    (yaw : ℚ) (hyaw : |yaw| ≤ 60) (k k2 : ℕ) (hk : k < 80) (hk2 : k2 < 80)
    (hne : k2 ≠ k) (hz : -(3/10) ≤ cosF (effAngleOf yaw k))
    (hz2 : -(3/10) ≤ cosF (effAngleOf yaw k2)) :
    ∃ j, j < 80 ∧ j ≠ k ∧ -(3/10) ≤ cosF (effAngleOf yaw j) ∧
      (j = k + 1 ∨ k = j + 1) := by
  rcases Nat.lt_or_ge k k2 with hlt | hge
  · refine ⟨k + 1, by omega, by omega, ?_, Or.inl rfl⟩
    have e1 : effAngleOf yaw k ≤ effAngleOf yaw (k + 1) :=
      effAngleOf_mono yaw (by omega)
    have e2 : effAngleOf yaw (k + 1) ≤ effAngleOf yaw k2 :=
      effAngleOf_mono yaw (by omega)
    have habs := abs_le_max_abs_abs e1 e2
    rcases max_cases |effAngleOf yaw k| |effAngleOf yaw k2| with
      ⟨hm, _⟩ | ⟨hm, _⟩
    · rw [hm] at habs
      have := hUni (effAngleOf yaw (k + 1)) (effAngleOf yaw k) habs
        (effAngleOf_abs_le yaw k hk hyaw)
      linarith
    · rw [hm] at habs
      have := hUni (effAngleOf yaw (k + 1)) (effAngleOf yaw k2) habs
        (effAngleOf_abs_le yaw k2 hk2 hyaw)
      linarith
  · have hlt2 : k2 < k := by omega
    refine ⟨k - 1, by omega, by omega, ?_, Or.inr (by omega)⟩
    have e1 : effAngleOf yaw k2 ≤ effAngleOf yaw (k - 1) :=
      effAngleOf_mono yaw (by omega)
    have e2 : effAngleOf yaw (k - 1) ≤ effAngleOf yaw k :=
      effAngleOf_mono yaw (by omega)
    have habs := abs_le_max_abs_abs e1 e2
    rcases max_cases |effAngleOf yaw k2| |effAngleOf yaw k| with
      ⟨hm, _⟩ | ⟨hm, _⟩
    · rw [hm] at habs
      have := hUni (effAngleOf yaw (k - 1)) (effAngleOf yaw k2) habs
        (effAngleOf_abs_le yaw k2 hk2 hyaw)
      linarith
    · rw [hm] at habs
      have := hUni (effAngleOf yaw (k - 1)) (effAngleOf yaw k) habs
        (effAngleOf_abs_le yaw k hk hyaw)
      linarith

/-- Distinct entries of the culled slice list are distinct records (the
`index` field identifies the sample). -/
theorem sliceDataOf_nodup (cosF sinF : ℚ → ℚ) (imgW bw yaw : ℚ) :
    (sliceDataOf cosF sinF imgW bw yaw).Nodup := by
  rw [sliceDataOf_eq]
  refine List.Nodup.filterMap ?_ (List.nodup_range 80)
  intro a a2 b hb hb2
  by_cases ha : -(3/10) ≤ cosF (effAngleOf yaw a)
  · rw [if_pos ha, Option.mem_def] at hb
    by_cases ha2 : -(3/10) ≤ cosF (effAngleOf yaw a2)
    · rw [if_pos ha2, Option.mem_def] at hb2
      have h1 : b.index = a := by
        rw [← Option.some.inj hb]
        rfl
      have h2 : b.index = a2 := by
        rw [← Option.some.inj hb2]
        rfl
      omega
    · rw [if_neg ha2] at hb2
      exact absurd hb2 (by simp)
  · rw [if_neg ha] at hb
    exact absurd hb (by simp)

/-- A successful `drawWrappedBandana` call records a nonnegative bandana
width (`|rightX - leftX| * 1.2`). -/
theorem drawWrappedBandana_bw_nonneg (cosF sinF : ℚ → ℚ) (img : Img)
    (lms : List (Option Pt)) (cw ch : ℚ) (m : Bool) (r : BandanaRender)
    (hr : drawWrappedBandana cosF sinF img lms cw ch m = some r) :
    0 ≤ r.bandanaWidth := by
  unfold drawWrappedBandana at hr
  by_cases h68 : lms.length < 68
  · rw [if_pos h68] at hr
    exact absurd hr (by simp)
  · rw [if_neg h68] at hr
    by_cases himg : ¬img.complete ∨ img.naturalWidth = 0
    · rw [if_pos himg] at hr
      exact absurd hr (by simp)
    · rw [if_neg himg] at hr
      rcases hh17 : lmGet lms 17 with _ | p17 <;> rw [hh17] at hr
      · simp at hr
      · rcases hh26 : lmGet lms 26 with _ | p26 <;> rw [hh26] at hr
        · simp at hr
        · rcases hh21 : lmGet lms 21 with _ | p21 <;> rw [hh21] at hr
          · simp at hr
          · rcases hh22 : lmGet lms 22 with _ | p22 <;> rw [hh22] at hr
            · simp at hr
            · obtain rfl : _ = r := Option.some.inj hr
              show (0 : ℚ) ≤ |p26.x * cw - p17.x * cw| * (12/10)
              positivity

/-- No-seam core: in the segment list built over any permutation of the
culled slice list (in particular the z-sorted one), every drawn slice's
width covers the distance to its nearest neighbouring slice — an
index-adjacent sample also survives the cull and lies within the base
width. -/
theorem no_seam_aux (cosF sinF : ℚ → ℚ)
    (hLip : ∀ a b, |sinF a - sinF b| ≤ |a - b|)
    (hUni : ∀ a b, |a| ≤ |b| → |b| ≤ jsPI → cosF b ≤ cosF a)
    (imgW bw yaw : ℚ) (hbw : 0 ≤ bw) (hyaw : |yaw| ≤ 60)
    (sorted : List Slice)
    (hperm : sorted.Perm (sliceDataOf cosF sinF imgW bw yaw))
    (i : ℕ) (hi : i < sorted.length) (g : ℚ)
    (hg : nearestSliceGap (segmentsFromSorted imgW bw sorted) i = some g) :
    g ≤ ((segmentsFromSorted imgW bw sorted).getD i default).sliceWidth := by
  have hsmem : sorted.getD i default ∈ sliceDataOf cosF sinF imgW bw yaw := by
    rw [List.getD_eq_getElem _ _ hi]
    exact hperm.mem_iff.mp (List.getElem_mem _)
  obtain ⟨k, hk80, hzk, hsk⟩ :=
    (mem_sliceDataOf cosF sinF imgW bw yaw _).mp hsmem
  haveI : Std.Antisymm ((· : ℚ) ≤ ·) := ⟨@fun _ _ h1 h2 => le_antisymm h1 h2⟩
  rw [nearestSliceGap] at hg
  obtain ⟨hgmem, hgle⟩ := (List.min?_eq_some_iff (fun a => le_refl a)
    (fun a b => min_choice a b) (fun a b c => le_min_iff)).mp hg
  rw [List.mem_map] at hgmem
  obtain ⟨j0, hj0mem, hj0val⟩ := hgmem
  rw [List.mem_filter, List.mem_range, segmentsFromSorted_length] at hj0mem
  obtain ⟨hj0len, hj0ne⟩ := hj0mem
  have hj0ne2 : j0 ≠ i := by simpa using hj0ne
  have hs2mem : sorted.getD j0 default ∈ sliceDataOf cosF sinF imgW bw yaw := by
    rw [List.getD_eq_getElem _ _ hj0len]
    exact hperm.mem_iff.mp (List.getElem_mem _)
  obtain ⟨k2, hk280, hzk2, hsk2⟩ :=
    (mem_sliceDataOf cosF sinF imgW bw yaw _).mp hs2mem
  have hnd : sorted.Nodup :=
    hperm.nodup_iff.mpr (sliceDataOf_nodup cosF sinF imgW bw yaw)
  have hkk2 : k2 ≠ k := by
    intro hEq
    have heq2 : sorted.getD j0 default = sorted.getD i default := by
      rw [hsk, hsk2, hEq]
    rw [List.getD_eq_getElem _ _ hj0len, List.getD_eq_getElem _ _ hi] at heq2
    exact hj0ne2 ((hnd.getElem_inj_iff).mp heq2)
  obtain ⟨j, hj80, hjk, hzj, hadj⟩ := sliceDataOf_adjacent cosF hUni
    yaw hyaw k k2 hk80 hk280 hkk2 hzk hzk2
  have hs3mem : sliceAt cosF sinF imgW bw yaw j ∈ sorted :=
    hperm.mem_iff.mpr
      ((mem_sliceDataOf cosF sinF imgW bw yaw _).mpr ⟨j, hj80, hzj, rfl⟩)
  obtain ⟨jp, hjpv⟩ := List.get_of_mem hs3mem
  have hjplen : (jp : ℕ) < sorted.length := jp.2
  have hjpget : sorted.getD (jp : ℕ) default =
      sliceAt cosF sinF imgW bw yaw j := by
    rw [List.getD_eq_getElem _ _ hjplen, ← List.get_eq_getElem]
    exact hjpv
  have hjpne : (jp : ℕ) ≠ i := by
    intro hEq
    apply hjk
    have h3 : sliceAt cosF sinF imgW bw yaw j = sorted.getD i default := by
      rw [← hjpget, hEq]
    rw [hsk] at h3
    exact congrArg Slice.index h3
  have hcand : |((segmentsFromSorted imgW bw sorted).getD (jp : ℕ)
        default).x - ((segmentsFromSorted imgW bw sorted).getD i default).x|
      ∈ ((List.range (segmentsFromSorted imgW bw sorted).length).filter
          (fun j2 => j2 != i)).map
        (fun j2 => |((segmentsFromSorted imgW bw sorted).getD j2 default).x
          - ((segmentsFromSorted imgW bw sorted).getD i default).x|) := by
    apply List.mem_map.mpr
    refine ⟨(jp : ℕ), ?_, rfl⟩
    rw [List.mem_filter, List.mem_range, segmentsFromSorted_length]
    exact ⟨hjplen, by simpa using hjpne⟩
  have hgle2 := hgle _ hcand
  have hxj : ((segmentsFromSorted imgW bw sorted).getD (jp : ℕ) default).x =
      (sliceAt cosF sinF imgW bw yaw j).x := by
    rw [segmentsFromSorted_getD _ _ _ _ hjplen]
    dsimp only
    rw [hjpget]
  have hxi : ((segmentsFromSorted imgW bw sorted).getD i default).x =
      (sliceAt cosF sinF imgW bw yaw k).x := by
    rw [segmentsFromSorted_getD _ _ _ _ hi]
    dsimp only
    rw [hsk]
  rw [hxj, hxi] at hgle2
  have hdist : |(sliceAt cosF sinF imgW bw yaw j).x
      - (sliceAt cosF sinF imgW bw yaw k).x| ≤ bw / 80 * 2 := by
    rcases hadj with h | h
    · rw [h]
      exact sliceAt_x_step cosF sinF hLip imgW bw yaw hbw k
    · rw [abs_sub_comm, h]
      exact sliceAt_x_step cosF sinF hLip imgW bw yaw hbw j
  have hbase : bw / 80 * 2 ≤
      ((segmentsFromSorted imgW bw sorted).getD i default).sliceWidth := by
    rw [segmentsFromSorted_getD _ _ _ _ hi]
    dsimp only
    split_ifs with hmid2
    · exact le_max_left _ _
    · exact le_refl _
  calc g ≤ _ := hgle2
    _ ≤ bw / 80 * 2 := hdist
    _ ≤ _ := hbase

/-- C3: in every overlay produced by `drawWrappedBandana`, the retained
slices (those surviving the back-face discard) are drawn in ascending
depth order (`z` nondecreasing, back to front); every drawn slice's
destination width is derived from the actual spacing to neighbouring
samples — at least the base width `2 * bandanaWidth / 80` and, for middle
slices, at least 1.5 times the average spacing `|x_next - x_prev| / 2` to
its two draw-order neighbours — and is at least the gap to its nearest
neighbouring slice (the no-seam invariant): an index-adjacent sample also
survives the cull and lies within the base width, since samples are
`jsPI/79` radians apart.  The hypotheses on `cosF`/`sinF` are the
environment facts used: the sine is 1-Lipschitz and the cosine is
nonincreasing in the angle's absolute value on `[-jsPI, jsPI]`, the only
range the code evaluates it on. -/
theorem drawWrappedBandana_no_seam (cosF sinF : ℚ → ℚ)
    (hLip : ∀ a b, |sinF a - sinF b| ≤ |a - b|)
    (hUni : ∀ a b, |a| ≤ |b| → |b| ≤ jsPI → cosF b ≤ cosF a)
    (img : Img) (lms : List (Option Pt)) (cw ch : ℚ) (m : Bool)
    (r : BandanaRender)
    (hr : drawWrappedBandana cosF sinF img lms cw ch m = some r) :
    r.segments.Pairwise (fun s1 s2 => s1.z ≤ s2.z) ∧
    ∀ i, i < r.segments.length →
      (r.bandanaWidth / 80 * 2 ≤ (r.segments.getD i default).sliceWidth ∧
       (0 < i ∧ i < r.segments.length - 1 →
         |(r.segments.getD (i + 1) default).x
           - (r.segments.getD (i - 1) default).x| / 2 * (3/2)
           ≤ (r.segments.getD i default).sliceWidth) ∧
       (∀ g, nearestSliceGap r.segments i = some g →
         g ≤ (r.segments.getD i default).sliceWidth)) := by
  have hsegs := drawWrappedBandana_some cosF sinF img lms cw ch m r hr
  have hbw := drawWrappedBandana_bw_nonneg cosF sinF img lms cw ch m r hr
  have hyaw := calculateHeadYaw_abs_le lms m
  constructor
  · rw [hsegs]
    exact segmentsFromSorted_pairwise _ _ _
      (List.sorted_insertionSort sliceLe _)
  · intro i hi
    refine ⟨?_, ?_, ?_⟩
    · rw [hsegs] at hi ⊢
      rw [segmentsFromSorted_length] at hi
      rw [segmentsFromSorted_getD _ _ _ _ hi]
      dsimp only
      split_ifs with hmid
      · exact le_max_left _ _
      · exact le_refl _
    · intro hmid
      rw [hsegs] at hi hmid ⊢
      rw [segmentsFromSorted_length] at hi hmid
      have h1 : i + 1 < (List.insertionSort sliceLe
          (sliceDataOf cosF sinF img.width r.bandanaWidth
            (calculateHeadYaw lms m))).length := by omega
      have h2 : i - 1 < (List.insertionSort sliceLe
          (sliceDataOf cosF sinF img.width r.bandanaWidth
            (calculateHeadYaw lms m))).length := by omega
      rw [segmentsFromSorted_getD _ _ _ _ hi,
        segmentsFromSorted_getD _ _ _ _ h1,
        segmentsFromSorted_getD _ _ _ _ h2]
      dsimp only
      rw [if_pos hmid]
      exact le_max_right _ _
    · intro g hg
      rw [hsegs] at hi hg ⊢
      rw [segmentsFromSorted_length] at hi
      exact no_seam_aux cosF sinF hLip hUni img.width r.bandanaWidth
        (calculateHeadYaw lms m) hbw hyaw _
        (List.perm_insertionSort sliceLe _) i hi g hg

/-- Witness for C3 at a concrete run (cosine constantly 1, sine constantly
0 — both satisfy the Lipschitz and monotonicity facts): sortedness, the
width bounds at slice 1, and the no-seam bound at slice 1. -/
theorem drawWrappedBandana_no_seam_witness :
    ∃ r, drawWrappedBandana (fun _ => 1) (fun _ => 0) wImg wLms
        1000 1000 false = some r ∧
      (r.segments.Pairwise (fun s1 s2 => s1.z ≤ s2.z) ∧
       r.bandanaWidth / 80 * 2 ≤ (r.segments.getD 1 default).sliceWidth ∧
       (0 < 1 ∧ 1 < r.segments.length - 1 →
         |(r.segments.getD 2 default).x - (r.segments.getD 0 default).x|
           / 2 * (3/2) ≤ (r.segments.getD 1 default).sliceWidth) ∧
       (∀ g, nearestSliceGap r.segments 1 = some g →
         g ≤ (r.segments.getD 1 default).sliceWidth)) := by
  cases hdr : drawWrappedBandana (fun _ => 1) (fun _ => 0) wImg wLms
      1000 1000 false with
  | none => exact absurd hdr (by with_unfolding_all decide)
  | some r =>
    refine ⟨r, rfl, ?_⟩
    obtain ⟨hp, hw⟩ := drawWrappedBandana_no_seam (fun _ => 1) (fun _ => 0)
      (fun a b => by simp)
      (fun a b h1 h2 => le_refl 1) wImg wLms 1000 1000 false r hdr
    have h1 : 1 < r.segments.length := by
      have hc := congrArg (fun o => (segmentsOf o).length) hdr
      dsimp [segmentsOf] at hc
      rw [← hc]
      with_unfolding_all decide
    exact ⟨hp, (hw 1 h1).1, fun hm => (hw 1 h1).2.1 hm,
      fun g hg => (hw 1 h1).2.2 g hg⟩
